import Mathlib

/-!
Shallow embedding of the ai_note_app backend core: the asynchronous
ingestion pipeline (job admission, job state machine, background worker)
and the incremental sync / offline mutation replay protocol.

Sources embedded (translated definition by definition):
  backend/app/models/note.py, deletion_log.py, upload_job.py
  backend/app/services/note_service.py
  backend/app/services/input_pipeline_service.py
  backend/app/services/storage_backends/local.py
  backend/app/services/pipeline_runner.py
  backend/app/services/user_service.py (delete_user)
  backend/app/api/v1/endpoints/library.py (create_note_from_image,
    sync_notes, apply_note_mutations, delete_note)
  backend/app/api/v1/endpoints/upload.py (upload_image, get_job,
    stream_job_progress)

Modelling conventions:
  * timestamps are Nat (UTC instants; the code compares them with < and <=
    only, so any linearly ordered carrier is faithful);
  * uuids, user ids and note ids are String, supplied as parameters where
    the code calls uuid4();
  * SQL rows are Lean structures, tables are lists, a commit is a pure
    state transition (the code commits each service operation atomically);
  * external collaborators (SHA-256 digest, mimetype guessing, Doubao
    vision model, text cleaning) are function parameters, matching the
    spec, which treats them as collaborator interfaces;
  * JSON columns keep exactly the shapes the code writes into them; the
    job.storage column in particular can hold either a dict (legacy shape
    used by the tests) or the list written by create_job, which the
    StorageJson type records.
-/

namespace AiNoteApp

/-- Python str.lower (ASCII case folding, which is all the code applies it
to: file extensions). -/
def strLower (s : String) : String := String.mk (s.toList.map Char.toLower)

def isSpaceCh (c : Char) : Bool := c = ' ' || c = '\t' || c = '\n' || c = '\r'

/-- Python str.strip(): drop leading and trailing whitespace. -/
def strStrip (s : String) : String :=
  String.mk (((s.toList.dropWhile isSpaceCh).reverse.dropWhile isSpaceCh).reverse)

def splitOnCharAux (c : Char) : List Char → List Char → List (List Char)
  | [], acc => [acc.reverse]
  | d :: rest, acc =>
    if d = c then acc.reverse :: splitOnCharAux c rest []
    else splitOnCharAux c rest (d :: acc)

/-- Python str.split(sep) for a one-character separator. -/
def splitOnChar (c : Char) (s : String) : List String :=
  (splitOnCharAux c s.toList []).map String.mk

/-- fastapi.HTTPException: status code plus detail string. -/
structure HError where
  status_code : Nat
  detail : String
deriving Repr, DecidableEq

/-- Python truthiness fallback a or b for an optional string (None and ""
are falsy). -/
def pyOrStr (a : Option String) (b : String) : String :=
  match a with
  | none => b
  | some s => if s = "" then b else s

/-- models/note.py Note row. structured_data is an opaque JSON blob and is
modelled as its serialized String. -/
structure Note where
  id : String
  user_id : Option String
  device_id : String
  title : String
  category : String
  tags : List String
  image_urls : List String
  image_filenames : List String
  image_sizes : List Nat
  original_text : String
  structured_data : String
  is_favorite : Bool
  is_archived : Bool
  created_at : Nat
  updated_at : Nat
deriving Repr, DecidableEq

/-- models/deletion_log.py DeletionLog row (tombstone). -/
structure DeletionLog where
  id : String
  note_id : String
  user_id : String
  deleted_at : Nat
deriving Repr, DecidableEq

/-- services/storage_backends/base.py StorageResult. -/
structure StorageResult where
  location : String
  path : String
  url : String
  bucket : Option String
  content_type : Option String
  size : Option Nat
deriving Repr, DecidableEq

/-- One storage descriptor dict as serialized into the job.storage JSON
column by create_job (input_pipeline_service.py lines 130-140). -/
structure StorageDescriptor where
  location : String
  path : String
  bucket : Option String
  url : String
  content_type : Option String
  size : Option Nat
deriving Repr, DecidableEq

/-- The job.storage JSON column. create_job always writes a list of
descriptor dicts; the model default and the tests use a dict; the column
starts out as the empty dict. -/
inductive StorageJson where
  | emptyObj
  | obj (d : StorageDescriptor)
  | arr (ds : List StorageDescriptor)
deriving Repr, DecidableEq

/-- Python exceptions that the embedded worker can observe. -/
inductive PyError where
  | attributeError (msg : String)
deriving Repr, DecidableEq

/-- (job.storage or \x7b\x7d).get("path") from pipeline_runner.py line 38: an
empty dict or empty list is falsy and falls back to the empty dict whose
.get returns None; a dict returns its path entry; a non-empty list has no
.get attribute and raises AttributeError. -/
def storageGetPath : StorageJson → Except PyError (Option String)
  | .emptyObj => .ok none
  | .obj d => .ok (some d.path)
  | .arr [] => .ok none
  | .arr (_ :: _) => .error (.attributeError "list object has no attribute get")

/-- (job.storage or \x7b\x7d).get("url") from pipeline_runner.py line 103. -/
def storageGetUrl : StorageJson → Except PyError (Option String)
  | .emptyObj => .ok none
  | .obj d => .ok (some d.url)
  | .arr [] => .ok none
  | .arr (_ :: _) => .error (.attributeError "list object has no attribute get")

/-- Per-file metadata dict built by create_job for each uploaded file. -/
structure FileEntryMeta where
  original_name : String
  extension : String
  size : Nat
  content_type : String
  checksum : String
deriving Repr, DecidableEq

/-- The job.file_meta JSON column: the per-file list plus the
backward-compatible single-file keys copied from the first file. -/
structure FileMetaPayload where
  files : List FileEntryMeta
  total_size : Nat
  original_name : String
  extension : String
  size : Nat
  content_type : String
  checksum : String
deriving Repr, DecidableEq

/-- One structured error record appended to job.error_logs
(pipeline_runner.py uses dicts with keys stage and error). -/
structure ErrorRecord where
  stage : String
  error : String
deriving Repr, DecidableEq

/-- The structured note payload returned by the Doubao collaborator: the
worker reads only its title key; the rest is carried opaquely. -/
structure AIPayload where
  title : Option String
  rest : String
deriving Repr, DecidableEq

/-- job.ocr_result JSON written by the worker (pipeline_runner.py lines
77-84); the provider response metadata is carried as an opaque String. -/
structure OcrResult where
  success : Bool
  provider : String
  is_mock : Bool
  text : String
  cleaned_text : String
  response : String
deriving Repr, DecidableEq

/-- Opaque serialization of the ai_result JSON: the note payload with the
meta block (provider and raw response) merged in, pipeline_runner.py lines
86-94. -/
def encodeAiResult (p : AIPayload) (provider : String) (response_meta : String) : String :=
  (match p.title with | some t => t | none => "") ++ "|" ++ p.rest
    ++ "|meta:" ++ provider ++ "|" ++ response_meta

/-- models/upload_job.py UploadJob row. -/
structure UploadJob where
  id : String
  user_id : Option String
  device_id : Option String
  source : String
  status : String
  file_meta : FileMetaPayload
  storage : StorageJson
  ocr_result : Option OcrResult
  ai_result : Option String
  error_logs : List ErrorRecord
  note_id : Option String
  created_at : Nat
  updated_at : Nat
deriving Repr, DecidableEq

/-- UploadJob.append_error: logs = self.error_logs or []; logs.append. -/
def UploadJob.appendError (j : UploadJob) (e : ErrorRecord) : UploadJob :=
  { j with error_logs := j.error_logs ++ [e] }

/-- The committed database state plus the storage backend contents (path
and bytes of every stored object). -/
structure DBState where
  notes : List Note
  deletion_logs : List DeletionLog
  upload_jobs : List UploadJob
  users : List String
  stored_files : List (String × List Nat)
deriving Repr, DecidableEq

def DBState.empty : DBState := ⟨[], [], [], [], []⟩

/-! ## note_service.py -/

/-- NoteService._ownership_filter: a note belongs to user_id when set,
otherwise to the device with the same id. -/
def ownershipFilter (u : String) (n : Note) : Bool :=
  n.user_id == some u || (n.user_id == none && n.device_id == u)

/-- The payload dict passed to NoteService.create_note by its callers
(pipeline_runner.py lines 98-108): legacy single-image keys plus title,
text, structured data, category and tags. -/
structure NoteCreateData where
  title : String
  original_text : String
  structured_data : String
  image_url : String
  image_filename : String
  image_size : Nat
  category : String
  tags : List String
deriving Repr, DecidableEq

/-- NoteService.create_note composed with _normalize_note_payload for the
payload shape above: the legacy single-image keys become one-element
parallel arrays; created_at = updated_at = now; device_id falls back to
user_id under Python truthiness. -/
def create_note (s : DBState) (data : NoteCreateData) (user_id : String)
    (device_id : Option String) (note_uuid : String) (now : Nat) : DBState × Note :=
  let note : Note :=
    { id := note_uuid
      user_id := some user_id
      device_id := pyOrStr device_id user_id
      title := data.title
      category := data.category
      tags := data.tags
      image_urls := [data.image_url]
      image_filenames := [data.image_filename]
      image_sizes := [data.image_size]
      original_text := data.original_text
      structured_data := data.structured_data
      is_favorite := false
      is_archived := false
      created_at := now
      updated_at := now }
  ({ s with notes := s.notes ++ [note] }, note)

/-- NoteService.get_note_by_id: first row with this id owned by the caller
and not archived. -/
def get_note_by_id (s : DBState) (note_id u : String) : Option Note :=
  s.notes.find? (fun n => n.id == note_id && ownershipFilter u n && !n.is_archived)

/-- schemas/note.py NoteUpdate: the update dict that reaches
NoteService.update_note after None values are dropped. -/
structure NoteUpdateData where
  title : Option String
  category : Option String
  tags : Option (List String)
  is_favorite : Option Bool
  original_text : Option String
  structured_data : Option String
deriving Repr, DecidableEq

/-- setattr loop of NoteService.update_note: apply each present key. -/
def applyNoteUpdate (n : Note) (d : NoteUpdateData) : Note :=
  { n with
    title := d.title.getD n.title
    category := d.category.getD n.category
    tags := d.tags.getD n.tags
    is_favorite := d.is_favorite.getD n.is_favorite
    original_text := d.original_text.getD n.original_text
    structured_data := d.structured_data.getD n.structured_data }

/-- The update dict is empty (all optional keys absent). -/
def NoteUpdateData.isEmpty (d : NoteUpdateData) : Bool :=
  d.title == none && d.category == none && d.tags == none &&
    d.is_favorite == none && d.original_text == none && d.structured_data == none

/-- NoteService.update_note: find the owned note, apply the update dict,
stamp updated_at, commit. The row is replaced by primary key. -/
def update_note (s : DBState) (note_id u : String) (d : NoteUpdateData)
    (now : Nat) : DBState × Option Note :=
  match get_note_by_id s note_id u with
  | none => (s, none)
  | some n =>
    let n' := { applyNoteUpdate n d with updated_at := now }
    ({ s with notes := s.notes.map (fun m => if m.id == n.id then n' else m) },
      some n')

/-- NoteService.delete_note: find the owned note; insert one DeletionLog
row and delete the note row in the same commit; double deletion finds
nothing and returns False. -/
def delete_note (s : DBState) (note_id u : String) (log_id : String)
    (now : Nat) : DBState × Bool :=
  match get_note_by_id s note_id u with
  | none => (s, false)
  | some _ =>
    let entry : DeletionLog :=
      { id := log_id, note_id := note_id, user_id := u, deleted_at := now }
    ({ s with
        notes := s.notes.filter (fun m => m.id != note_id)
        deletion_logs := s.deletion_logs ++ [entry] },
      true)

/-- NoteService.set_favorite: explicit idempotent favorite flag. -/
def set_favorite (s : DBState) (note_id u : String) (value : Bool)
    (now : Nat) : DBState × Option Note :=
  match get_note_by_id s note_id u with
  | none => (s, none)
  | some n =>
    let n' := { n with is_favorite := value, updated_at := now }
    ({ s with notes := s.notes.map (fun m => if m.id == n.id then n' else m) },
      some n')

/-- NoteService.toggle_favorite. -/
def toggle_favorite (s : DBState) (note_id u : String)
    (now : Nat) : DBState × Option Note :=
  match get_note_by_id s note_id u with
  | none => (s, none)
  | some n =>
    let n' := { n with is_favorite := !n.is_favorite, updated_at := now }
    ({ s with notes := s.notes.map (fun m => if m.id == n.id then n' else m) },
      some n')

/-! ## Incremental sync (note_service.py lines 227-274, library.py sync_notes) -/

/-- ORDER BY Note.updated_at ASC. -/
def noteLe (a b : Note) : Prop := a.updated_at ≤ b.updated_at

instance : DecidableRel noteLe := fun a b => Nat.decLe a.updated_at b.updated_at

/-- ORDER BY DeletionLog.deleted_at ASC. -/
def logLe (a b : DeletionLog) : Prop := a.deleted_at ≤ b.deleted_at

instance : DecidableRel logLe := fun a b => Nat.decLe a.deleted_at b.deleted_at

/-- WHERE clause of get_notes_updated_since: owned, not archived,
updated_at > since, and updated_at <= until when an upper bound is given. -/
def updatedCandidates (s : DBState) (u : String) (since : Nat)
    (untilOpt : Option Nat) : List Note :=
  let base := s.notes.filter (fun n =>
    ownershipFilter u n && !n.is_archived && decide (since < n.updated_at))
  match untilOpt with
  | none => base
  | some t => base.filter (fun n => decide (n.updated_at ≤ t))

/-- NoteService.get_notes_updated_since: WHERE, ORDER BY updated_at ASC,
LIMIT (default 500). -/
def get_notes_updated_since (s : DBState) (u : String) (since : Nat)
    (untilOpt : Option Nat) (limit : Nat := 500) : List Note :=
  (List.insertionSort noteLe (updatedCandidates s u since untilOpt)).take limit

/-- WHERE clause of get_deleted_note_ids_since. -/
def deletedCandidates (s : DBState) (u : String) (since : Nat)
    (untilOpt : Option Nat) : List DeletionLog :=
  let base := s.deletion_logs.filter (fun l =>
    l.user_id == u && decide (since < l.deleted_at))
  match untilOpt with
  | none => base
  | some t => base.filter (fun l => decide (l.deleted_at ≤ t))

/-- NoteService.get_deleted_note_ids_since: WHERE, ORDER BY deleted_at
ASC, LIMIT (default 500), project note_id. -/
def get_deleted_note_ids_since (s : DBState) (u : String) (since : Nat)
    (untilOpt : Option Nat) (limit : Nat := 500) : List String :=
  ((List.insertionSort logLe (deletedCandidates s u since untilOpt)).take limit).map
    DeletionLog.note_id

/-- schemas/note.py NoteSummary: the lightweight projection without
original_text and structured_data (load_only SUMMARY_FIELDS). -/
structure NoteSummary where
  id : String
  user_id : Option String
  device_id : String
  title : String
  category : String
  tags : List String
  image_urls : List String
  image_filenames : List String
  image_sizes : List Nat
  is_favorite : Bool
  is_archived : Bool
  created_at : Nat
  updated_at : Nat
deriving Repr, DecidableEq

def noteSummary (n : Note) : NoteSummary :=
  ⟨n.id, n.user_id, n.device_id, n.title, n.category, n.tags, n.image_urls,
    n.image_filenames, n.image_sizes, n.is_favorite, n.is_archived,
    n.created_at, n.updated_at⟩

structure NoteSyncResponse where
  updated : List NoteSummary
  deleted_ids : List String
  server_time : Nat
deriving Repr, DecidableEq

/-- The sentinel epoch-start watermark used when since is absent
(datetime(2000, 1, 1): the origin of the modelled timeline). -/
def epochStart : Nat := 0

/-- library.py sync_notes endpoint: fix until = now at request start, then
run the two delta queries against it. -/
def sync_notes (s : DBState) (u : String) (since : Option Nat)
    (now : Nat) : NoteSyncResponse :=
  let sync_watermark := now
  let sinceVal := match since with | none => epochStart | some t => t
  { updated := (get_notes_updated_since s u sinceVal (some sync_watermark)).map noteSummary
    deleted_ids := get_deleted_note_ids_since s u sinceVal (some sync_watermark)
    server_time := sync_watermark }

/-! ## input_pipeline_service.py -/

def ALLOWED_EXTENSIONS : List String :=
  [".jpg", ".jpeg", ".png", ".gif", ".bmp", ".tiff"]

def MAX_FILE_SIZE : Nat := 10 * 1024 * 1024

def MAX_IMAGE_COUNT : Nat := 10

def MAX_CONCURRENT_NOTE_JOBS_PER_USER : Nat := 10

def TERMINAL_JOB_STATUSES : List String := ["FAILED", "PERSISTED"]

def NOTE_JOB_SOURCE : String := "library_from_image"

/-- Index of the last occurrence of c, or -1 (Python str.rfind). -/
def lastIndexOf (cs : List Char) (c : Char) : Int :=
  (cs.foldl
    (fun (acc : Int × Int) ch =>
      (acc.1 + 1, if ch = c then acc.1 else acc.2))
    ((0 : Int), (-1 : Int))).2

/-- os.path.splitext extension part (posixpath: sep is the slash): the
suffix from the last dot, provided that dot lies after the last slash and
some non-dot character of the basename precedes it (leading dots never
start an extension). -/
def splitextExtension (p : String) : String :=
  let cs := p.toList
  let sepIndex := lastIndexOf cs '/'
  let dotIndex := lastIndexOf cs '.'
  if dotIndex ≤ sepIndex then ""
  else if (cs.enum.any fun pr =>
      decide (sepIndex < (pr.1 : Int)) && decide ((pr.1 : Int) < dotIndex)
        && pr.2 != '.') then
    String.mk (cs.drop dotIndex.toNat)
  else ""

/-- An uploaded file as the service sees it (starlette UploadFile). -/
structure FileUpload where
  filename : Option String
  content_type : Option String
  data : List Nat
deriving Repr, DecidableEq

/-- storage_backends/local.py LocalStorageBackend.store_bytes with the
default base_dir uploaded_images and public url under /static/: writes the
bytes and returns the descriptor. -/
def store_bytes (s : DBState) (data : List Nat) (filename : String)
    (content_type : Option String) : DBState × StorageResult :=
  let target_path := "uploaded_images/" ++ filename
  ({ s with stored_files := s.stored_files ++ [(target_path, data)] },
    { location := "local"
      path := target_path
      url := "/static/" ++ filename
      bucket := none
      content_type := content_type
      size := some data.length })

/-- The validation loop of create_job (lines 55-90): reject a missing
filename, an extension outside the allow-list, empty content, or content
over the size cap; compute the per-file metadata (checksum via the
abstract digest parameter, content type via Python truthiness fallback
over the abstract mimetype guesser). -/
def validateFiles (hash : List Nat → String) (guessType : String → Option String) :
    List FileUpload → Except HError (List (FileEntryMeta × List Nat × String × String))
  | [] => .ok []
  | f :: fs =>
    let filename := pyOrStr f.filename ""
    if filename = "" then
      .error ⟨400, "Missing filename"⟩
    else
      let extension := strLower (splitextExtension filename)
      if !(ALLOWED_EXTENSIONS.contains extension) then
        .error ⟨400, "Unsupported file type: " ++ extension⟩
      else if f.data.length = 0 then
        .error ⟨400, "Empty file: " ++ filename⟩
      else if f.data.length > MAX_FILE_SIZE then
        .error ⟨400, "File too large (10MB max): " ++ filename⟩
      else
        let checksum := hash f.data
        let ctype := pyOrStr f.content_type (pyOrStr (guessType filename) "application/octet-stream")
        match validateFiles hash guessType fs with
        | .error e => .error e
        | .ok rest =>
          .ok ((⟨filename, extension, f.data.length, ctype, checksum⟩,
                f.data, extension, ctype) :: rest)

/-- The storage loop of create_job (lines 115-125): store every payload,
naming the object job_id.ext in single-file mode and job_id_idx.ext
otherwise. -/
def storePayloads (s : DBState) (job_id : String) (single : Bool) :
    List (List Nat × String × String) → Nat → DBState × List StorageResult
  | [], _ => (s, [])
  | (data, extension, ctype) :: rest, idx =>
    let target_name :=
      if single then job_id ++ extension
      else job_id ++ "_" ++ toString idx ++ extension
    let (s1, stored) := store_bytes s data target_name (some ctype)
    let (s2, results) := storePayloads s1 job_id single rest (idx + 1)
    (s2, stored :: results)

def storageResultToDescriptor (r : StorageResult) : StorageDescriptor :=
  ⟨r.location, r.path, r.bucket, r.url, r.content_type, r.size⟩

/-- InputPipelineService.create_job: bound the batch size, validate every
file before any byte is written, then store all payloads and commit one
Job row in STORED state carrying the per-file metadata and the list of
storage descriptors. A validation failure raises before anything is added
to the session, so the state is unchanged. -/
def create_job (s : DBState) (hash : List Nat → String)
    (guessType : String → Option String) (files : List FileUpload)
    (user_id device_id : Option String) (source : Option String)
    (job_id : String) (now : Nat) :
    Except HError (DBState × UploadJob × List StorageResult) :=
  if files.length = 0 then
    .error ⟨400, "No uploaded files"⟩
  else if files.length > MAX_IMAGE_COUNT then
    .error ⟨400, "Too many files, max allowed is 10"⟩
  else
    match validateFiles hash guessType files with
    | .error e => .error e
    | .ok validated =>
      let file_metas := validated.map (·.1)
      let binary_payloads := validated.map (·.2)
      match file_metas with
      | [] => .error ⟨400, "No uploaded files"⟩
      | first_meta :: _ =>
        let file_meta_payload : FileMetaPayload :=
          { files := file_metas
            total_size := (file_metas.map (·.size)).sum
            original_name := first_meta.original_name
            extension := first_meta.extension
            size := first_meta.size
            content_type := first_meta.content_type
            checksum := first_meta.checksum }
        let single_file_mode := binary_payloads.length = 1
        let (s1, storage_results) := storePayloads s job_id single_file_mode binary_payloads 0
        let job : UploadJob :=
          { id := job_id
            user_id := user_id
            device_id := device_id
            source := pyOrStr source "unknown"
            status := "STORED"
            file_meta := file_meta_payload
            storage := .arr (storage_results.map storageResultToDescriptor)
            ocr_result := none
            ai_result := none
            error_logs := []
            note_id := none
            created_at := now
            updated_at := now }
        .ok ({ s1 with upload_jobs := s1.upload_jobs ++ [job] }, job, storage_results)

/-- InputPipelineService.count_active_jobs: jobs of this owner whose
status is outside the terminal set, optionally filtered by source (the
source filter is skipped for a falsy value). -/
def count_active_jobs (s : DBState) (u : String) (source : Option String) : Nat :=
  (s.upload_jobs.filter fun j =>
    j.user_id == some u && !(TERMINAL_JOB_STATUSES.contains j.status) &&
      (match source with
       | none => true
       | some sc => if sc = "" then true else j.source == sc)).length

/-! ## upload.py endpoints -/

/-- upload.py upload_image: bound the batch and call create_job with
source upload_api. There is no admission-control check on this path. -/
def upload_image (s : DBState) (hash : List Nat → String)
    (guessType : String → Option String) (files : List FileUpload)
    (u : String) (job_id : String) (now : Nat) :
    Except HError (DBState × UploadJob × List StorageResult) :=
  if files.length = 0 then
    .error ⟨400, "没有上传文件"⟩
  else if files.length > MAX_IMAGE_COUNT then
    .error ⟨400, "传入图片请小于或等于10张"⟩
  else
    create_job s hash guessType files (some u) (some u) (some "upload_api") job_id now

/-- upload.py ownership check shared by get_job and the stream endpoints:
403 only when user_id is truthy and differs from the caller. -/
def jobAuthOk (j : UploadJob) (caller : String) : Bool :=
  match j.user_id with
  | none => true
  | some uid => if uid = "" then true else uid == caller

/-- upload.py get_job: 404 when absent, 403 on ownership mismatch, else
the full job snapshot. -/
def get_job_endpoint (s : DBState) (job_id caller : String) :
    Except HError UploadJob :=
  match s.upload_jobs.find? (fun j => j.id == job_id) with
  | none => .error ⟨404, "Upload job not found"⟩
  | some j =>
    if jobAuthOk j caller then .ok j
    else .error ⟨403, "无权访问该上传任务"⟩

/-- upload.py _serialize_job: the de-duplicated snapshot streamed to the
client. -/
structure JobSnapshot where
  id : String
  status : String
  updated_at : Nat
  note_id : Option String
  error_logs : List ErrorRecord
deriving Repr, DecidableEq

def serialize_job (j : UploadJob) : JobSnapshot :=
  ⟨j.id, j.status, j.updated_at, j.note_id, j.error_logs⟩

inductive SseEvent where
  | message (snap : JobSnapshot)
  | errorEvent (msg : String)
deriving Repr, DecidableEq

/-- upload.py stream_job_progress pre-stream check (404 / 403 before the
event generator starts). -/
def stream_open (s : DBState) (job_id caller : String) : Except HError Unit :=
  match s.upload_jobs.find? (fun j => j.id == job_id) with
  | none => .error ⟨404, "上传任务不存在"⟩
  | some j =>
    if jobAuthOk j caller then .ok ()
    else .error ⟨403, "无权访问该上传任务"⟩

/-- upload.py event_generator: one element of polls per 1.5s tick holding
the job row re-read at that tick (none when the row has vanished). Each
tick re-checks ownership, emits the serialized snapshot only when it
differs from the last emitted one, and stops after a terminal snapshot or
an error event. The modelled stream also stops when polls is exhausted. -/
def stream_events (caller : String) :
    List (Option UploadJob) → Option JobSnapshot → List SseEvent
  | [], _ => []
  | p :: rest, prev =>
    match p with
    | none => [.errorEvent "上传任务不存在"]
    | some j =>
      if !jobAuthOk j caller then [.errorEvent "无权访问该上传任务"]
      else
        let snap := serialize_job j
        let emitted := if some snap ≠ prev then [SseEvent.message snap] else []
        let prev' := if some snap ≠ prev then some snap else prev
        if TERMINAL_JOB_STATUSES.contains snap.status then emitted
        else emitted ++ stream_events caller rest prev'

/-! ## pipeline_runner.py -/

/-- pipeline_runner._update_status: set the status, stamp updated_at,
commit, refresh. Rows are replaced by primary key. -/
def update_status_commit (s : DBState) (j : UploadJob) (status : String)
    (now : Nat) : DBState × UploadJob :=
  let j' := { j with status := status, updated_at := now }
  ({ s with upload_jobs := s.upload_jobs.map (fun k => if k.id == j'.id then j' else k) },
    j')

/-- Append one structured error record and commit the job as FAILED;
returns the new state and the committed snapshot. -/
def failJobWith (s : DBState) (j : UploadJob) (stage msg : String)
    (now : Nat) : DBState × UploadJob :=
  update_status_commit s (j.appendError ⟨stage, msg⟩) "FAILED" now

/-- pipeline_runner._normalize_tags. -/
def normalizeTags (tags : List String) : List String :=
  tags.filterMap (fun t => let t' := strStrip t; if t' = "" then none else some t')

/-- Outcome of the doubao_service.generate_structured_note call: a typed
DoubaoServiceError, any other exception, or the parsed output (note
payload, raw text, opaque response metadata). -/
inductive GenOutcome where
  | serviceError (msg : String)
  | crash (msg : String)
  | ok (payload : AIPayload) (raw_text : String) (response_meta : String)
deriving Repr, DecidableEq

/-- pipeline_runner.process_note_job. Parameters beyond the job identity
mirror the worker inputs and its collaborators: avail/availReason is
doubao_service.availability_status(), gen the vision call outcome,
cleanText the text-cleaning collaborator, note_uuid the id minted for the
created note, now the wall clock. Returns the final state together with
the committed snapshots of the job row, in commit order. -/
def process_note_job (s : DBState) (job_id : String)
    (user_id device_id note_type : String) (tags : List String)
    (avail : Bool) (availReason : Option String) (gen : GenOutcome)
    (cleanText : String → String) (note_uuid : String) (now : Nat) :
    DBState × List UploadJob :=
  match s.upload_jobs.find? (fun j => j.id == job_id) with
  | none => (s, [])
  | some job =>
    match storageGetPath job.storage with
    | .error (.attributeError msg) =>
      -- The AttributeError on the list-shaped storage column propagates to
      -- the outer handler, which rolls back, re-reads the job, appends an
      -- UNEXPECTED record and commits FAILED.
      let (s', j') := failJobWith s job "UNEXPECTED" msg now
      (s', [j'])
    | .ok pathOpt =>
      let storage_path := pyOrStr pathOpt ""
      if storage_path = "" then
        let (s', j') := failJobWith s job "DOUBAO" "Missing storage path" now
        (s', [j'])
      else if !avail then
        let (s', j') := failJobWith s job "DOUBAO" (pyOrStr availReason "Doubao 服务不可用") now
        (s', [j'])
      else
        let (s1, j1) := update_status_commit s job "AI_PENDING" now
        match gen with
        | .serviceError msg =>
          let (s2, j2) := failJobWith s1 j1 "DOUBAO" msg now
          (s2, [j1, j2])
        | .crash msg =>
          let (s2, j2) := failJobWith s1 j1 "DOUBAO" msg now
          (s2, [j1, j2])
        | .ok payload raw_text response_meta =>
          let cleaned := if raw_text = "" then "" else cleanText raw_text
          let ocr : OcrResult :=
            { success := true, provider := "doubao", is_mock := false
              text := raw_text, cleaned_text := cleaned, response := response_meta }
          let ai_json := encodeAiResult payload "doubao" response_meta
          let j2 := { j1 with ocr_result := some ocr, ai_result := some ai_json }
          let (s2, j3) := update_status_commit s1 j2 "AI_DONE" now
          let image_url := pyOrStr (match storageGetUrl job.storage with
            | .ok v => v
            | .error _ => none) ""
          let (s3, note) := create_note s2
            { title := payload.title.getD "未命名笔记"
              original_text := if cleaned = "" then raw_text else cleaned
              structured_data := ai_json
              image_url := image_url
              image_filename := job.file_meta.original_name
              image_size := job.file_meta.size
              category := note_type
              tags := normalizeTags tags }
            user_id (some device_id) note_uuid now
          let j4 := { j3 with note_id := some note.id }
          let (s4, j5) := update_status_commit s3 j4 "PERSISTED" now
          -- Cleanup: unlink the uploaded image file if it exists.
          let s5 := { s4 with
            stored_files := s4.stored_files.filter (fun f => f.1 != storage_path) }
          (s5, [j1, j3, j5])

/-! ## library.py endpoints -/

structure NoteGenerationJobResponse where
  job_id : String
  status : String
  detail : Option String
  file_urls : List String
  queued_at : Nat
  progress_url : String
deriving Repr, DecidableEq

/-- Arguments the endpoint hands to the asyncio.create_task background
invocation of process_note_job. -/
structure ProcessArgs where
  job_id : String
  user_id : String
  device_id : String
  note_type : String
  tags : List String
deriving Repr, DecidableEq

/-- [tag.strip() for tag in tags.split(",") if tag.strip()] -/
def splitTags (tags : Option String) : List String :=
  match tags with
  | none => []
  | some t =>
    if t = "" then []
    else (splitOnChar ',' t).filterMap fun x =>
      let x' := strStrip x
      if x' = "" then none else some x'

/-- library.py create_note_from_image: merge the legacy single-file
parameter, bound the batch, run the admission check (count of active jobs
with source library_from_image at or above the cap rejects with 429
before create_job runs), create the job, flip it to QUEUED (the column
onupdate refreshes updated_at) and schedule the background task. Returns
the new state, the HTTP response, the scheduled task arguments, and the
committed snapshots of the job row in commit order. -/
def create_note_from_image (s : DBState) (hash : List Nat → String)
    (guessType : String → Option String) (files : List FileUpload)
    (fileCompat : Option FileUpload) (note_type : String)
    (tags : Option String) (u : String) (job_id : String) (now : Nat) :
    Except HError (DBState × NoteGenerationJobResponse × ProcessArgs × List UploadJob) :=
  let incoming := files ++ (match fileCompat with | some f => [f] | none => [])
  if incoming.length = 0 then
    .error ⟨400, "至少上传一张图片"⟩
  else if incoming.length > MAX_IMAGE_COUNT then
    .error ⟨400, "传入图片请小于或等于10张"⟩
  else
    let active_jobs := count_active_jobs s u (some NOTE_JOB_SOURCE)
    if active_jobs ≥ MAX_CONCURRENT_NOTE_JOBS_PER_USER then
      .error ⟨429, "当前并发任务已达上限"⟩
    else
      match create_job s hash guessType incoming (some u) (some u)
          (some NOTE_JOB_SOURCE) job_id now with
      | .error e => .error e
      | .ok (s1, job, storage_results) =>
        let tags_list := splitTags tags
        let (s2, job2) := update_status_commit s1 job "QUEUED" now
        .ok (s2,
          { job_id := job2.id
            status := "ENQUEUED"
            detail := some "笔记生成任务已进入后台队列"
            file_urls := storage_results.map (·.url)
            queued_at := job2.updated_at
            progress_url := "/api/v1/upload/jobs/" ++ job2.id ++ "/stream" },
          ⟨job2.id, u, u, note_type, tags_list⟩,
          [job, job2])

/-- library.py delete_note endpoint: 404 when the service finds nothing,
otherwise the service has already deleted the row and written the
tombstone. -/
def delete_note_endpoint (s : DBState) (note_id u : String)
    (log_id : String) (now : Nat) : Except HError DBState :=
  let (s', ok) := delete_note s note_id u log_id now
  if ok then .ok s' else .error ⟨404, "笔记不存在"⟩

/-! ## Offline mutation replay (library.py apply_note_mutations) -/

inductive MutationType where
  | update_note
  | set_favorite
  | delete_note
deriving Repr, DecidableEq

def MutationType.str : MutationType → String
  | .update_note => "update_note"
  | .set_favorite => "set_favorite"
  | .delete_note => "delete_note"

/-- schemas/note.py NoteMutationItem. -/
structure NoteMutationItem where
  op_id : String
  mtype : MutationType
  note_id : String
  patch : Option NoteUpdateData
  is_favorite : Option Bool
deriving Repr, DecidableEq

/-- schemas/note.py NoteMutationResult. -/
structure NoteMutationResult where
  op_id : String
  mtype : String
  note_id : String
  status : String
  code : Nat
  message : Option String
  updated_at : Option Nat
deriving Repr, DecidableEq

structure NoteMutationBatchResponse where
  results : List NoteMutationResult
  applied_count : Nat
  failed_count : Nat
  server_time : Nat
deriving Repr, DecidableEq

/-- One iteration of the apply_note_mutations loop. fault injects an
exception raised inside the try block before the mutation commits (the
except branch turns it into a failed result without aborting the batch).
now is the wall clock at this iteration and log_id the tombstone id minted
for a delete. -/
def applyOneMutation (s : DBState) (u : String) (m : NoteMutationItem)
    (fault : Option String) (now : Nat) (log_id : String) :
    DBState × NoteMutationResult :=
  match fault with
  | some msg =>
    (s, ⟨m.op_id, m.mtype.str, m.note_id, "failed", 500, some msg, none⟩)
  | none =>
    match m.mtype with
    | .update_note =>
      match m.patch with
      | none =>
        (s, ⟨m.op_id, m.mtype.str, m.note_id, "invalid", 422,
          some "update_note requires patch", none⟩)
      | some p =>
        if p.isEmpty then
          (s, ⟨m.op_id, m.mtype.str, m.note_id, "invalid", 422,
            some "update_note patch cannot be empty", none⟩)
        else
          match update_note s m.note_id u p now with
          | (s', some n) =>
            (s', ⟨m.op_id, m.mtype.str, m.note_id, "applied", 200, none,
              some n.updated_at⟩)
          | (_, none) =>
            (s, ⟨m.op_id, m.mtype.str, m.note_id, "not_found", 404,
              some "note not found", none⟩)
    | .set_favorite =>
      match m.is_favorite with
      | none =>
        (s, ⟨m.op_id, m.mtype.str, m.note_id, "invalid", 422,
          some "set_favorite requires is_favorite", none⟩)
      | some v =>
        match set_favorite s m.note_id u v now with
        | (s', some n) =>
          (s', ⟨m.op_id, m.mtype.str, m.note_id, "applied", 200, none,
            some n.updated_at⟩)
        | (_, none) =>
          (s, ⟨m.op_id, m.mtype.str, m.note_id, "not_found", 404,
            some "note not found", none⟩)
    | .delete_note =>
      match delete_note s m.note_id u log_id now with
      | (s', true) =>
        (s', ⟨m.op_id, m.mtype.str, m.note_id, "applied", 200, none, none⟩)
      | (_, false) =>
        (s, ⟨m.op_id, m.mtype.str, m.note_id, "not_found", 404,
          some "note not found", none⟩)

/-- The loop of apply_note_mutations: each mutation is applied
independently; i indexes the batch for the fault model, the per-iteration
clock and the minted tombstone ids. -/
def applyMutationsAux (u : String) (faults : Nat → Option String)
    (clock : Nat → Nat) (logIds : Nat → String) :
    DBState → List NoteMutationItem → Nat → DBState × List NoteMutationResult
  | s, [], _ => (s, [])
  | s, m :: ms, i =>
    let (s', r) := applyOneMutation s u m (faults i) (clock i) (logIds i)
    let (s'', rs) := applyMutationsAux u faults clock logIds s' ms (i + 1)
    (s'', r :: rs)

/-- library.py apply_note_mutations: run the loop, then count applied
results; failed_count is everything that is not applied. -/
def apply_note_mutations (s : DBState) (u : String)
    (muts : List NoteMutationItem) (faults : Nat → Option String)
    (clock : Nat → Nat) (logIds : Nat → String) (server_now : Nat) :
    DBState × NoteMutationBatchResponse :=
  let (s', results) := applyMutationsAux u faults clock logIds s muts 0
  let applied_count := results.countP (fun r => r.status == "applied")
  (s',
    { results := results
      applied_count := applied_count
      failed_count := results.length - applied_count
      server_time := server_now })

/-! ## user_service.py delete_user -/

/-- UserService.delete_user: bulk-delete the Notes and UploadJobs whose
user_id equals the account being removed, then the user row, in one
commit. No DeletionLog rows are written on this path. -/
def delete_user (s : DBState) (uid : String) : DBState × Bool :=
  if s.users.contains uid then
    ({ s with
        notes := s.notes.filter (fun n => n.user_id != some uid)
        upload_jobs := s.upload_jobs.filter (fun j => j.user_id != some uid)
        users := s.users.filter (fun x => x != uid) },
      true)
  else (s, false)

/-! ## The end-to-end pipeline composite (for the state-machine and
invariant claims): the create_note_from_image request followed by the
scheduled process_note_job task, with the committed snapshots of the job
row collected in commit order. -/

def pipelineRun (s : DBState) (hash : List Nat → String)
    (guessType : String → Option String) (files : List FileUpload)
    (fileCompat : Option FileUpload) (note_type : String)
    (tags : Option String) (u : String) (job_id note_uuid : String)
    (avail : Bool) (availReason : Option String) (gen : GenOutcome)
    (cleanText : String → String) (t0 t1 : Nat) : DBState × List UploadJob :=
  match create_note_from_image s hash guessType files fileCompat note_type
      tags u job_id t0 with
  | .error _ => (s, [])
  | .ok (s2, _resp, args, snaps) =>
    let (s3, workerSnaps) := process_note_job s2 args.job_id args.user_id
      args.device_id args.note_type args.tags avail availReason gen
      cleanText note_uuid t1
    (s3, snaps ++ workerSnaps)

/-! ## Sync-window operation model (for the delta-query claim): the note
create / update / delete service operations an owner performs between two
sync calls. -/

inductive NoteOp where
  | createOp (note_uuid : String) (data : NoteCreateData) (t : Nat)
  | updateOp (note_id : String) (d : NoteUpdateData) (t : Nat)
  | deleteOp (note_id : String) (log_id : String) (t : Nat)
deriving Repr, DecidableEq

def NoteOp.time : NoteOp → Nat
  | .createOp _ _ t => t
  | .updateOp _ _ t => t
  | .deleteOp _ _ t => t

def NoteOp.createdId : NoteOp → Option String
  | .createOp nid _ _ => some nid
  | _ => none

/-- Run one service operation as owner u; returns the touched note id when
the operation modified a note (create always does, update and delete only
when the target exists and is owned). -/
def applyOp (u : String) (s : DBState) (op : NoteOp) : DBState × Option String :=
  match op with
  | .createOp nid data t =>
    let (s', n) := create_note s data u (some u) nid t
    (s', some n.id)
  | .updateOp x d t =>
    let (s', r) := update_note s x u d t
    (s', if r.isSome then some x else none)
  | .deleteOp x lid t =>
    let (s', ok) := delete_note s x u lid t
    (s', if ok then some x else none)

def applyOpsAux (u : String) : DBState → List String → List NoteOp → DBState × List String
  | s, touched, [] => (s, touched)
  | s, touched, op :: ops =>
    let (s', r) := applyOp u s op
    applyOpsAux u s'
      (match r with | some x => touched ++ [x] | none => touched) ops

/-- Run a sequence of service operations, collecting the touched ids. -/
def applyOps (u : String) (s : DBState) (ops : List NoteOp) : DBState × List String :=
  applyOpsAux u s [] ops

/-! ## Concrete fixtures used by the claim theorems and witnesses -/

def exHash : List Nat → String := fun bs => "sha-" ++ toString bs.length

def exGuess : String → Option String := fun _ => none

def exClean : String → String := fun s => s

def exFile1 : FileUpload := ⟨some "page1.png", some "image/png", [1, 2, 3]⟩

def exFile2 : FileUpload := ⟨some "page2.png", some "image/png", [4, 5]⟩

def exFile3 : FileUpload := ⟨some "page3.png", some "image/png", [6]⟩

def exPayload : AIPayload := ⟨some "Sample Note", "sections"⟩

/-- Scenario A input: three valid images submitted through the endpoint,
collaborator available and returning a valid structured payload. -/
def scenarioARun : DBState × List UploadJob :=
  pipelineRun DBState.empty exHash exGuess [exFile1, exFile2, exFile3] none
    "学习笔记" (some "t1,t2") "u1" "job-a" "note-a" true none
    (.ok exPayload "raw text" "resp-a") exClean 1 2

/-- Claim C3: with 3 valid images and a collaborator returning a valid
structured payload the job is supposed to reach PERSISTED with a linked
3-image note; evaluating the code instead shows the worker crashing on the
list-shaped storage column written by create_job (AttributeError on
list.get), committing FAILED with an UNEXPECTED record and creating no
note at all. -/
theorem scenarioA_three_images_job_fails :
    scenarioARun.2.map UploadJob.status = ["STORED", "QUEUED", "FAILED"] ∧
    scenarioARun.2.map UploadJob.note_id = [none, none, none] ∧
    (scenarioARun.2.map UploadJob.error_logs).getLast? =
      some [⟨"UNEXPECTED", "list object has no attribute get"⟩] ∧
    scenarioARun.1.notes = [] := by
  decide

/-- Scenario B input: one valid image submitted through the endpoint, the
collaborator reporting unavailable. -/
def scenarioBRun : DBState × List UploadJob :=
  pipelineRun DBState.empty exHash exGuess [exFile1] none "学习笔记" none
    "u1" "job-b" "note-b" false (some "Doubao SDK not installed")
    (.serviceError "unreachable") exClean 1 2

/-- A job row shaped the way the test suite builds it by hand: the storage
column is a single dict, not the list create_job writes. -/
def dictStorageJob : UploadJob :=
  { id := "job-d"
    user_id := some "u1"
    device_id := some "u1"
    source := "test"
    status := "QUEUED"
    file_meta := ⟨[], 123, "fake.png", ".png", 123, "image/png", "abc"⟩
    storage := .obj ⟨"local", "fake-path", none, "/static/fake.png", none, none⟩
    ocr_result := none
    ai_result := none
    error_logs := []
    note_id := none
    created_at := 0
    updated_at := 0 }

def dictStorageState : DBState := { DBState.empty with upload_jobs := [dictStorageJob] }

def scenarioBDictRun : DBState × List UploadJob :=
  process_note_job dictStorageState "job-d" "u1" "u1" "学习笔记" []
    false (some "Doubao SDK not installed") (.serviceError "unreachable")
    exClean "note-d" 5

/-- Claim C9: with the collaborator unavailable the spec expects FAILED
with a collaborator-stage record and no note. On a job actually produced
by create_job the worker crashes on the list-shaped storage column first
and records stage UNEXPECTED, not the collaborator stage; only on the
dict-shaped rows the tests build by hand does the unavailable collaborator
produce the collaborator-stage record, and the code spells that stage
DOUBAO (its only stages are DOUBAO and UNEXPECTED, never ADMISSION or
STORAGE). In both cases exactly one record is appended and no note is
created. -/
theorem scenarioB_unavailable_collaborator_stage :
    scenarioBRun.2.map UploadJob.status = ["STORED", "QUEUED", "FAILED"] ∧
    (scenarioBRun.2.map UploadJob.error_logs).getLast? =
      some [⟨"UNEXPECTED", "list object has no attribute get"⟩] ∧
    scenarioBRun.1.notes = [] ∧
    scenarioBDictRun.2.map UploadJob.status = ["FAILED"] ∧
    (scenarioBDictRun.2.map UploadJob.error_logs).getLast? =
      some [⟨"DOUBAO", "Doubao SDK not installed"⟩] ∧
    scenarioBDictRun.1.notes = [] := by
  decide

/-! ## Claim C4: admission control -/

def quotaFileMeta : FileMetaPayload := ⟨[], 0, "", "", 0, "", ""⟩

def activeJob (i : Nat) (src : String) : UploadJob :=
  { id := "J" ++ toString i
    user_id := some "u1"
    device_id := some "u1"
    source := src
    status := "QUEUED"
    file_meta := quotaFileMeta
    storage := .emptyObj
    ocr_result := none
    ai_result := none
    error_logs := []
    note_id := none
    created_at := 0
    updated_at := 0 }

/-- Ten non-terminal jobs of owner u1, all created through the generic
upload endpoint. -/
def tenUploadJobsState : DBState :=
  { DBState.empty with upload_jobs := (List.range 10).map (fun i => activeJob i "upload_api") }

/-- Claim C4 counterexample: with the owner already at ten non-terminal
jobs (the configured limit), the generic upload endpoint still creates an
eleventh job row — it performs no admission check at all, so the quota
does not hold across every job-creating endpoint. -/
theorem upload_endpoint_bypasses_quota :
    count_active_jobs tenUploadJobsState "u1" none = 10 ∧
    MAX_CONCURRENT_NOTE_JOBS_PER_USER = 10 ∧
    (upload_image tenUploadJobsState exHash exGuess [exFile1] "u1" "J10" 5).toOption.map
      (fun r => r.1.upload_jobs.length) = some 11 := by
  decide

/-- Claim C4 (amended): only the library notes/from-image endpoint
enforces the quota, counting the owner's non-terminal jobs with source
library_from_image; when that count is at or above the limit the request
is rejected with 429 before create_job runs, so no job row is created. -/
theorem from_image_admission_quota (s : DBState) (hash : List Nat → String)
    (guessType : String → Option String) (files : List FileUpload)
    (fileCompat : Option FileUpload) (note_type : String) (tags : Option String)
    (u job_id : String) (now : Nat)
    (hne : (files ++ (match fileCompat with | some f => [f] | none => [])).length ≠ 0)
    (hle : (files ++ (match fileCompat with | some f => [f] | none => [])).length ≤ MAX_IMAGE_COUNT)
    (hcount : MAX_CONCURRENT_NOTE_JOBS_PER_USER ≤ count_active_jobs s u (some NOTE_JOB_SOURCE)) :
    create_note_from_image s hash guessType files fileCompat note_type tags u job_id now
      = .error ⟨429, "当前并发任务已达上限"⟩ := by
  have hle' := Nat.not_lt.mpr hle
  cases fileCompat with
  | none =>
    simp only [create_note_from_image]
    rw [if_neg hne, if_neg hle', if_pos hcount]
  | some f =>
    simp only [create_note_from_image]
    rw [if_neg hne, if_neg hle', if_pos hcount]

/-- Ten non-terminal jobs of owner u1 with source library_from_image. -/
def tenLibraryJobsState : DBState :=
  { DBState.empty with upload_jobs := (List.range 10).map (fun i => activeJob i NOTE_JOB_SOURCE) }

theorem from_image_admission_quota_witness :
    create_note_from_image tenLibraryJobsState exHash exGuess [exFile1] none
      "学习笔记" none "u1" "JX" 3 = .error ⟨429, "当前并发任务已达上限"⟩ :=
  from_image_admission_quota tenLibraryJobsState exHash exGuess [exFile1] none
    "学习笔记" none "u1" "JX" 3 (by decide) (by decide) (by decide)

/-! ## Claim C2: deletion tombstones -/

def c2note : Note :=
  { id := "n1"
    user_id := some "u1"
    device_id := "u1"
    title := "t"
    category := "c"
    tags := []
    image_urls := []
    image_filenames := []
    image_sizes := []
    original_text := ""
    structured_data := ""
    is_favorite := false
    is_archived := false
    created_at := 0
    updated_at := 0 }

def c2state : DBState := { DBState.empty with notes := [c2note], users := ["u1"] }

/-- Claim C2 counterexample: the account-deletion path bulk-deletes the
notes owned by the removed user without inserting any DeletionLog row, so
it is not true of every code path that a note deletion inserts a
tombstone. -/
theorem delete_user_bypasses_tombstone :
    (delete_user c2state "u1").2 = true ∧
    c2state.notes.length = 1 ∧
    (delete_user c2state "u1").1.notes = [] ∧
    (delete_user c2state "u1").1.deletion_logs = [] := by
  decide

/-- When the lookup succeeds, delete_note removes the rows with that id
and appends exactly one tombstone in the same state transition. -/
theorem delete_note_success_shape (s : DBState) (x u lid : String) (t : Nat)
    (hfind : (get_note_by_id s x u).isSome = true) :
    delete_note s x u lid t =
      ({ s with
          notes := s.notes.filter (fun m => m.id != x)
          deletion_logs := s.deletion_logs ++ [⟨lid, x, u, t⟩] }, true) := by
  unfold delete_note
  cases h : get_note_by_id s x u with
  | none => rw [h] at hfind; simp at hfind
  | some n => rfl

/-- When the lookup fails, delete_note changes nothing and returns false. -/
theorem delete_note_fail_shape (s : DBState) (x u lid : String) (t : Nat)
    (hfind : get_note_by_id s x u = none) :
    delete_note s x u lid t = (s, false) := by
  unfold delete_note
  rw [hfind]

/-- A successfully deleted note can no longer be found, by any caller. -/
theorem get_note_by_id_after_delete (s : DBState) (x u lid : String) (t : Nat)
    (hdel : (delete_note s x u lid t).2 = true) :
    ∀ u' : String, get_note_by_id (delete_note s x u lid t).1 x u' = none := by
  intro u'
  cases hfind : get_note_by_id s x u with
  | none => rw [delete_note_fail_shape s x u lid t hfind] at hdel; simp at hdel
  | some n =>
    rw [delete_note_success_shape s x u lid t (by rw [hfind]; rfl)]
    simp only [get_note_by_id]
    apply List.find?_eq_none.mpr
    intro m hm
    have hmem := List.mem_filter.mp hm
    have hne : (m.id != x) = true := hmem.2
    simp only [bne_iff_ne, ne_eq] at hne
    simp only [Bool.and_eq_true, beq_iff_eq]
    intro hcontra
    exact hne hcontra.1.1

/-- Claim C2 (amended): through the note-delete primitive shared by the
direct DELETE endpoint and the mutation-replay delete branch, removing the
note row and inserting exactly one tombstone happen in the same committed
state transition, a failed lookup changes nothing, and deleting the same
note a second time returns not-found and inserts no additional tombstone. -/
theorem delete_note_tombstone_paths (s : DBState) (x u lid lid' : String) (t t' : Nat) :
    ((delete_note s x u lid t).2 = true →
      (delete_note s x u lid t).1.notes = s.notes.filter (fun m => m.id != x) ∧
      (delete_note s x u lid t).1.deletion_logs = s.deletion_logs ++ [⟨lid, x, u, t⟩] ∧
      ((delete_note s x u lid t).1.deletion_logs.countP (fun l => l.note_id == x))
        = (s.deletion_logs.countP (fun l => l.note_id == x)) + 1) ∧
    ((delete_note s x u lid t).2 = false → (delete_note s x u lid t).1 = s) ∧
    ((delete_note s x u lid t).2 = true →
      (delete_note (delete_note s x u lid t).1 x u lid' t').2 = false ∧
      (delete_note (delete_note s x u lid t).1 x u lid' t').1 = (delete_note s x u lid t).1) ∧
    (delete_note_endpoint s x u lid t =
      if (delete_note s x u lid t).2 then .ok (delete_note s x u lid t).1
      else .error ⟨404, "笔记不存在"⟩) ∧
    (∀ m : NoteMutationItem, m.mtype = .delete_note →
      (applyOneMutation s u m none t lid).1 = (delete_note s m.note_id u lid t).1) := by
  refine ⟨?_, ?_, ?_, ?_, ?_⟩
  · intro hdel
    cases hfind : get_note_by_id s x u with
    | none => rw [delete_note_fail_shape s x u lid t hfind] at hdel; simp at hdel
    | some n =>
      rw [delete_note_success_shape s x u lid t (by rw [hfind]; rfl)]
      refine ⟨rfl, rfl, ?_⟩
      simp [List.countP_append]
  · intro hdel
    cases hfind : get_note_by_id s x u with
    | none => rw [delete_note_fail_shape s x u lid t hfind]
    | some n =>
      rw [delete_note_success_shape s x u lid t (by rw [hfind]; rfl)] at hdel
      simp at hdel
  · intro hdel
    have hnone := get_note_by_id_after_delete s x u lid t hdel u
    rw [delete_note_fail_shape _ x u lid' t' hnone]
    exact ⟨rfl, rfl⟩
  · cases hd : delete_note s x u lid t with
    | mk s' ok =>
      unfold delete_note_endpoint
      rw [hd]
  · intro m hm
    unfold applyOneMutation
    rw [hm]
    cases hfind : get_note_by_id s m.note_id u with
    | none =>
      rw [delete_note_fail_shape s m.note_id u lid t hfind]
    | some n =>
      rw [delete_note_success_shape s m.note_id u lid t (by rw [hfind]; rfl)]

theorem delete_note_tombstone_paths_witness :
    ((delete_note c2state "n1" "u1" "L1" 5).2 = true →
      (delete_note c2state "n1" "u1" "L1" 5).1.notes
        = c2state.notes.filter (fun m => m.id != "n1") ∧
      (delete_note c2state "n1" "u1" "L1" 5).1.deletion_logs
        = c2state.deletion_logs ++ [⟨"L1", "n1", "u1", 5⟩] ∧
      ((delete_note c2state "n1" "u1" "L1" 5).1.deletion_logs.countP
          (fun l => l.note_id == "n1"))
        = (c2state.deletion_logs.countP (fun l => l.note_id == "n1")) + 1) ∧
    (delete_note c2state "n1" "u1" "L1" 5).2 = true ∧
    (delete_note (delete_note c2state "n1" "u1" "L1" 5).1 "n1" "u1" "L2" 6).2 = false := by
  refine ⟨(delete_note_tombstone_paths c2state "n1" "u1" "L1" "L2" 5 6).1, by decide, ?_⟩
  exact ((delete_note_tombstone_paths c2state "n1" "u1" "L1" "L2" 5 6).2.2.1 (by decide)).1

/-! ## Claim C10: device-owned jobs are visible to every caller -/

theorem jobAuthOk_of_none (j : UploadJob) (h : j.user_id = none) :
    ∀ c : String, jobAuthOk j c = true := by
  intro c
  unfold jobAuthOk
  rw [h]

/-- When the per-tick ownership check passes, one stream iteration
reduces to the de-duplicating emit plus the terminal check. -/
theorem stream_events_cons_auth (c : String) (j : UploadJob)
    (rest : List (Option UploadJob)) (prev : Option JobSnapshot)
    (hauth : jobAuthOk j c = true) :
    stream_events c (some j :: rest) prev =
      (if TERMINAL_JOB_STATUSES.contains (serialize_job j).status then
        (if some (serialize_job j) ≠ prev then [SseEvent.message (serialize_job j)] else [])
      else
        (if some (serialize_job j) ≠ prev then [SseEvent.message (serialize_job j)] else []) ++
          stream_events c rest
            (if some (serialize_job j) ≠ prev then some (serialize_job j) else prev)) := by
  simp [stream_events, hauth]

theorem auth_error_not_in_emitted (j : UploadJob) (prev : Option JobSnapshot) :
    SseEvent.errorEvent "无权访问该上传任务" ∉
      (if some (serialize_job j) ≠ prev then [SseEvent.message (serialize_job j)] else []) := by
  split <;> simp

/-- Helper for the stream hyperproperty: when every polled row is
device-owned (user_id is NULL), the event stream does not depend on the
caller and never carries the authorization error event. -/
theorem stream_events_caller_indep (u1 u2 : String) :
    ∀ (polls : List (Option UploadJob)) (prev : Option JobSnapshot),
      (∀ p ∈ polls, ∀ j, p = some j → j.user_id = none) →
      stream_events u1 polls prev = stream_events u2 polls prev ∧
      SseEvent.errorEvent "无权访问该上传任务" ∉ stream_events u1 polls prev := by
  intro polls
  induction polls with
  | nil => exact fun prev h => ⟨rfl, by simp [stream_events]⟩
  | cons p rest ih =>
    intro prev h
    cases p with
    | none =>
      refine ⟨rfl, ?_⟩
      simp only [stream_events, List.mem_singleton]
      intro hc
      have heq : ("无权访问该上传任务" : String) = "上传任务不存在" := by injection hc
      exact absurd heq (by decide)
    | some j =>
      have hnone := h (some j) (List.mem_cons_self _ _) j rfl
      have h1 := jobAuthOk_of_none j hnone u1
      have h2 := jobAuthOk_of_none j hnone u2
      have hrest : ∀ p ∈ rest, ∀ j', p = some j' → j'.user_id = none :=
        fun p hp => h p (List.mem_cons_of_mem _ hp)
      obtain ⟨ihEq, ihMem⟩ := ih
        (if some (serialize_job j) ≠ prev then some (serialize_job j) else prev) hrest
      rw [stream_events_cons_auth u1 j rest prev h1, stream_events_cons_auth u2 j rest prev h2]
      by_cases hterm : TERMINAL_JOB_STATUSES.contains (serialize_job j).status = true
      · rw [if_pos hterm, if_pos hterm]
        exact ⟨rfl, auth_error_not_in_emitted j prev⟩
      · rw [if_neg hterm, if_neg hterm, ihEq]
        refine ⟨rfl, ?_⟩
        intro hc
        rcases List.mem_append.mp hc with hm | hm
        · exact auth_error_not_in_emitted j prev hm
        · rw [← ihEq] at hm
          exact ihMem hm

/-- Claim C10: for a job row whose user_id is NULL (device-only
ownership), the snapshot endpoint and the progress stream authorize every
authenticated caller: two distinct callers receive identical results and
identical event streams, and no 403 is ever produced. -/
theorem device_owned_job_visibility (s : DBState) (job_id u1 u2 : String)
    (polls : List (Option UploadJob))
    (hjob : ∀ j, s.upload_jobs.find? (fun k => k.id == job_id) = some j → j.user_id = none)
    (hpolls : ∀ p ∈ polls, ∀ j, p = some j → j.user_id = none) :
    get_job_endpoint s job_id u1 = get_job_endpoint s job_id u2 ∧
    (∀ e, get_job_endpoint s job_id u1 = .error e → e.status_code ≠ 403) ∧
    stream_open s job_id u1 = stream_open s job_id u2 ∧
    (∀ e, stream_open s job_id u1 = .error e → e.status_code ≠ 403) ∧
    stream_events u1 polls none = stream_events u2 polls none ∧
    SseEvent.errorEvent "无权访问该上传任务" ∉ stream_events u1 polls none := by
  obtain ⟨hEq, hMem⟩ := stream_events_caller_indep u1 u2 polls none hpolls
  refine ⟨?_, ?_, ?_, ?_, hEq, hMem⟩
  · cases hf : s.upload_jobs.find? (fun k => k.id == job_id) with
    | none => simp only [get_job_endpoint, hf]
    | some j =>
      simp only [get_job_endpoint, hf]
      rw [jobAuthOk_of_none j (hjob j hf) u1, jobAuthOk_of_none j (hjob j hf) u2]
  · cases hf : s.upload_jobs.find? (fun k => k.id == job_id) with
    | none =>
      simp only [get_job_endpoint, hf]
      intro e he
      cases he
      decide
    | some j =>
      simp only [get_job_endpoint, hf]
      rw [jobAuthOk_of_none j (hjob j hf) u1]
      intro e he
      rw [if_pos rfl] at he
      exact Except.noConfusion he
  · cases hf : s.upload_jobs.find? (fun k => k.id == job_id) with
    | none => simp only [stream_open, hf]
    | some j =>
      simp only [stream_open, hf]
      rw [jobAuthOk_of_none j (hjob j hf) u1, jobAuthOk_of_none j (hjob j hf) u2]
  · cases hf : s.upload_jobs.find? (fun k => k.id == job_id) with
    | none =>
      simp only [stream_open, hf]
      intro e he
      cases he
      decide
    | some j =>
      simp only [stream_open, hf]
      rw [jobAuthOk_of_none j (hjob j hf) u1]
      intro e he
      rw [if_pos rfl] at he
      exact Except.noConfusion he

def anonJob : UploadJob := { dictStorageJob with user_id := none }

theorem device_owned_job_visibility_witness :
    get_job_endpoint { DBState.empty with upload_jobs := [anonJob] } "job-d" "alice"
      = get_job_endpoint { DBState.empty with upload_jobs := [anonJob] } "job-d" "bob" ∧
    stream_events "alice" [some anonJob, some { anonJob with status := "PERSISTED" }] none
      = stream_events "bob" [some anonJob, some { anonJob with status := "PERSISTED" }] none := by
  have h := device_owned_job_visibility { DBState.empty with upload_jobs := [anonJob] }
    "job-d" "alice" "bob" [some anonJob, some { anonJob with status := "PERSISTED" }]
    (by decide)
    (by
      intro p hp j hj
      rcases List.mem_cons.mp hp with h1 | h1
      · rw [h1] at hj; cases hj; rfl
      · rcases List.mem_singleton.mp h1 with h2
        rw [h2] at hj; cases hj; rfl)
  exact ⟨h.1, h.2.2.2.2.1⟩

/-! ## Claim C5: validate the whole batch before storing anything -/

/-- A file fails the ingestion validation: falsy filename, extension
outside the allow-list, empty content, or content above the size cap
(the four rejection conditions of the create_job loop, in order). -/
def fileInvalid (f : FileUpload) : Bool :=
  let filename := pyOrStr f.filename ""
  decide (filename = "") ||
    !(ALLOWED_EXTENSIONS.contains (strLower (splitextExtension filename))) ||
    decide (f.data.length = 0) ||
    decide (f.data.length > MAX_FILE_SIZE)

/-- The metadata dict create_job computes for one valid file. -/
def metaOf (hash : List Nat → String) (guessType : String → Option String)
    (f : FileUpload) : FileEntryMeta :=
  let filename := pyOrStr f.filename ""
  { original_name := filename
    extension := strLower (splitextExtension filename)
    size := f.data.length
    content_type := pyOrStr f.content_type (pyOrStr (guessType filename) "application/octet-stream")
    checksum := hash f.data }

def extOf (f : FileUpload) : String :=
  strLower (splitextExtension (pyOrStr f.filename ""))

def ctypeOf (guessType : String → Option String) (f : FileUpload) : String :=
  pyOrStr f.content_type (pyOrStr (guessType (pyOrStr f.filename "")) "application/octet-stream")

/-- The tuple the validation loop computes for one valid file: metadata
plus the binary payload triple. -/
def validatedEntry (hash : List Nat → String) (guessType : String → Option String)
    (f : FileUpload) : FileEntryMeta × List Nat × String × String :=
  (metaOf hash guessType f, f.data, extOf f, ctypeOf guessType f)

theorem validateFiles_ok_of_valid (hash : List Nat → String)
    (guessType : String → Option String) :
    ∀ fs : List FileUpload, (∀ f ∈ fs, fileInvalid f = false) →
      validateFiles hash guessType fs = .ok (fs.map (validatedEntry hash guessType)) := by
  intro fs
  induction fs with
  | nil => intro _; rfl
  | cons f rest ih =>
    intro h
    have hf := h f (List.mem_cons_self _ _)
    have hrest := ih (fun g hg => h g (List.mem_cons_of_mem _ hg))
    simp only [fileInvalid, Bool.or_eq_false_iff, decide_eq_false_iff_not,
      Bool.not_eq_false] at hf
    obtain ⟨⟨⟨h1, h2⟩, h3⟩, h4⟩ := hf
    simp only [validateFiles, if_neg h1, h2, Bool.not_true, Bool.false_eq_true,
      if_neg (fun hc => h3 hc), if_neg (fun hc => h4 hc), hrest]
    rfl

theorem validateFiles_error_of_invalid (hash : List Nat → String)
    (guessType : String → Option String) :
    ∀ fs : List FileUpload, (∃ f ∈ fs, fileInvalid f = true) →
      ∃ e, validateFiles hash guessType fs = .error e := by
  intro fs
  induction fs with
  | nil => rintro ⟨f, hf, -⟩; cases hf
  | cons f rest ih =>
    rintro ⟨g, hg, hbad⟩
    by_cases hfbad : fileInvalid f = true
    · simp only [validateFiles]
      by_cases h1 : pyOrStr f.filename "" = ""
      · rw [if_pos h1]; exact ⟨_, rfl⟩
      · rw [if_neg h1]
        by_cases h2 : ALLOWED_EXTENSIONS.contains (strLower (splitextExtension (pyOrStr f.filename ""))) = true
        · rw [h2]
          simp only [Bool.not_true, Bool.false_eq_true, if_false]
          by_cases h3 : f.data.length = 0
          · rw [if_pos h3]; exact ⟨_, rfl⟩
          · rw [if_neg h3]
            by_cases h4 : f.data.length > MAX_FILE_SIZE
            · rw [if_pos h4]; exact ⟨_, rfl⟩
            · exfalso
              have hfi : fileInvalid f = false := by
                simp only [fileInvalid]
                rw [h2, decide_eq_false h1, decide_eq_false h3, decide_eq_false h4]
                rfl
              rw [hfi] at hfbad
              exact Bool.false_ne_true hfbad
        · rw [Bool.not_eq_true] at h2
          rw [h2]
          simp only [Bool.not_false, if_true]
          exact ⟨_, rfl⟩
    · have hgrest : g ∈ rest := by
        rcases List.mem_cons.mp hg with h | h
        · rw [h] at hbad; exact absurd hbad hfbad
        · exact h
      obtain ⟨e, he⟩ := ih ⟨g, hgrest, hbad⟩
      rw [Bool.not_eq_true] at hfbad
      simp only [fileInvalid, Bool.or_eq_false_iff, decide_eq_false_iff_not,
        Bool.not_eq_false] at hfbad
      obtain ⟨⟨⟨h1, h2⟩, h3⟩, h4⟩ := hfbad
      simp only [validateFiles, if_neg h1, h2, Bool.not_true, Bool.false_eq_true,
        if_neg (fun hc => h3 hc), if_neg (fun hc => h4 hc), he]
      exact ⟨e, rfl⟩

theorem storePayloads_spec (jid : String) (single : Bool) :
    ∀ (ps : List (List Nat × String × String)) (s : DBState) (idx : Nat),
      (storePayloads s jid single ps idx).2.length = ps.length ∧
      (storePayloads s jid single ps idx).1.notes = s.notes ∧
      (storePayloads s jid single ps idx).1.deletion_logs = s.deletion_logs ∧
      (storePayloads s jid single ps idx).1.upload_jobs = s.upload_jobs ∧
      (storePayloads s jid single ps idx).1.users = s.users ∧
      ∃ written, (storePayloads s jid single ps idx).1.stored_files
          = s.stored_files ++ written ∧ written.length = ps.length := by
  intro ps
  induction ps with
  | nil => exact fun s idx => ⟨rfl, rfl, rfl, rfl, rfl, [], by simp [storePayloads], rfl⟩
  | cons p rest ih =>
    intro s idx
    obtain ⟨pd, pe, pc⟩ := p
    have hred : storePayloads s jid single ((pd, pe, pc) :: rest) idx =
        ((storePayloads
            { s with stored_files := s.stored_files ++
                [("uploaded_images/" ++ (if single then jid ++ pe else jid ++ "_" ++ toString idx ++ pe), pd)] }
            jid single rest (idx + 1)).1,
          { location := "local"
            path := "uploaded_images/" ++ (if single then jid ++ pe else jid ++ "_" ++ toString idx ++ pe)
            url := "/static/" ++ (if single then jid ++ pe else jid ++ "_" ++ toString idx ++ pe)
            bucket := none
            content_type := some pc
            size := some pd.length } ::
          (storePayloads
            { s with stored_files := s.stored_files ++
                [("uploaded_images/" ++ (if single then jid ++ pe else jid ++ "_" ++ toString idx ++ pe), pd)] }
            jid single rest (idx + 1)).2) := rfl
    obtain ⟨hlen, hn, hd, hj, hu, written, hsf, hwlen⟩ :=
      ih { s with stored_files := s.stored_files ++
            [("uploaded_images/" ++ (if single then jid ++ pe else jid ++ "_" ++ toString idx ++ pe), pd)] }
        (idx + 1)
    rw [hred]
    refine ⟨by simpa using hlen, hn, hd, hj, hu,
      ("uploaded_images/" ++ (if single then jid ++ pe else jid ++ "_" ++ toString idx ++ pe), pd)
        :: written, ?_, by simpa using hwlen⟩
    rw [hsf]
    simp

/-- The value create_job commits on the success path for a non-empty
batch, spelled out (same lets as the source, with the validation loop
already resolved). -/
def createJobOk (s : DBState) (hash : List Nat → String)
    (guessType : String → Option String) (f0 : FileUpload) (rest : List FileUpload)
    (user_id device_id : Option String) (source : Option String)
    (job_id : String) (now : Nat) : DBState × UploadJob × List StorageResult :=
  let validated := (f0 :: rest).map (validatedEntry hash guessType)
  let file_metas := validated.map (·.1)
  let binary_payloads := validated.map (·.2)
  let first_meta := (validatedEntry hash guessType f0).1
  let file_meta_payload : FileMetaPayload :=
    { files := file_metas
      total_size := (file_metas.map (·.size)).sum
      original_name := first_meta.original_name
      extension := first_meta.extension
      size := first_meta.size
      content_type := first_meta.content_type
      checksum := first_meta.checksum }
  let single_file_mode := binary_payloads.length = 1
  let run := storePayloads s job_id single_file_mode binary_payloads 0
  let job : UploadJob :=
    { id := job_id
      user_id := user_id
      device_id := device_id
      source := pyOrStr source "unknown"
      status := "STORED"
      file_meta := file_meta_payload
      storage := .arr (run.2.map storageResultToDescriptor)
      ocr_result := none
      ai_result := none
      error_logs := []
      note_id := none
      created_at := now
      updated_at := now }
  ({ run.1 with upload_jobs := run.1.upload_jobs ++ [job] }, job, run.2)

theorem create_job_ok_shape (s : DBState) (hash : List Nat → String)
    (guessType : String → Option String) (f0 : FileUpload) (rest : List FileUpload)
    (uid did src : Option String) (jid : String) (now : Nat)
    (hle : ¬((f0 :: rest).length > MAX_IMAGE_COUNT))
    (hvalid : ∀ f ∈ f0 :: rest, fileInvalid f = false) :
    create_job s hash guessType (f0 :: rest) uid did src jid now =
      .ok (createJobOk s hash guessType f0 rest uid did src jid now) := by
  unfold create_job
  rw [if_neg (by simp), if_neg hle,
    validateFiles_ok_of_valid hash guessType (f0 :: rest) hvalid]
  rfl

/-- Claim C5: the ingestion gateway validates the whole batch (falsy
filename, allow-listed extension, non-empty content, size cap, checksum
computed) before anything reaches the storage backend: any invalid file,
an empty batch, or an oversized batch raises without committing a job row
or writing bytes, and on a fully valid batch exactly one STORED job row is
committed carrying the per-file metadata (with the digest of each file)
and one storage descriptor per file, while the stored objects grow by
exactly one entry per file. -/
theorem create_job_validate_then_store (s : DBState) (hash : List Nat → String)
    (guessType : String → Option String) (files : List FileUpload)
    (uid did src : Option String) (jid : String) (now : Nat) :
    (files.length = 0 →
      ∃ e, create_job s hash guessType files uid did src jid now = .error e) ∧
    (files.length > MAX_IMAGE_COUNT →
      ∃ e, create_job s hash guessType files uid did src jid now = .error e) ∧
    ((∃ f ∈ files, fileInvalid f = true) → files.length ≤ MAX_IMAGE_COUNT →
      ∃ e, create_job s hash guessType files uid did src jid now = .error e) ∧
    ((∀ f ∈ files, fileInvalid f = false) → files.length ≠ 0 →
      files.length ≤ MAX_IMAGE_COUNT →
      ∃ s' job results,
        create_job s hash guessType files uid did src jid now = .ok (s', job, results) ∧
        job.status = "STORED" ∧
        job.id = jid ∧ job.user_id = uid ∧ job.note_id = none ∧ job.error_logs = [] ∧
        job.file_meta.files = files.map (metaOf hash guessType) ∧
        job.storage = .arr (results.map storageResultToDescriptor) ∧
        results.length = files.length ∧
        s'.upload_jobs = s.upload_jobs ++ [job] ∧
        s'.notes = s.notes ∧ s'.deletion_logs = s.deletion_logs ∧ s'.users = s.users ∧
        ∃ written, s'.stored_files = s.stored_files ++ written ∧
          written.length = files.length) := by
  refine ⟨?_, ?_, ?_, ?_⟩
  · intro h0
    unfold create_job
    rw [if_pos h0]
    exact ⟨_, rfl⟩
  · intro hgt
    unfold create_job
    by_cases h0 : files.length = 0
    · rw [if_pos h0]; exact ⟨_, rfl⟩
    · rw [if_neg h0, if_pos hgt]; exact ⟨_, rfl⟩
  · intro hbad hle
    obtain ⟨e, he⟩ := validateFiles_error_of_invalid hash guessType files hbad
    unfold create_job
    by_cases h0 : files.length = 0
    · rw [if_pos h0]; exact ⟨_, rfl⟩
    · rw [if_neg h0, if_neg (Nat.not_lt.mpr hle), he]
      exact ⟨e, rfl⟩
  · intro hvalid hne hle
    obtain ⟨f0, rest, rfl⟩ : ∃ f0 rest, files = f0 :: rest := by
      cases files with
      | nil => exact absurd rfl hne
      | cons a b => exact ⟨a, b, rfl⟩
    have hshape := create_job_ok_shape s hash guessType f0 rest uid did src jid now
      (Nat.not_lt.mpr hle) hvalid
    obtain ⟨hplen, hpnotes, hpdel, hpjobs, hpusers, written, hpsf, hpwlen⟩ :=
      storePayloads_spec jid
        (decide ((((f0 :: rest).map (validatedEntry hash guessType)).map (·.2)).length = 1))
        (((f0 :: rest).map (validatedEntry hash guessType)).map (·.2)) s 0
    refine ⟨_, _, _, hshape, rfl, rfl, rfl, rfl, rfl, ?_, rfl, ?_, ?_, ?_, ?_, ?_,
      written, ?_, ?_⟩
    · show (((f0 :: rest).map (validatedEntry hash guessType)).map (·.1))
        = (f0 :: rest).map (metaOf hash guessType)
      rw [List.map_map]
      rfl
    · show (storePayloads s jid _ _ 0).2.length = (f0 :: rest).length
      rw [hplen]
      simp
    · show (storePayloads s jid _ _ 0).1.upload_jobs ++ [_] = s.upload_jobs ++ [_]
      rw [hpjobs]
    · exact hpnotes
    · exact hpdel
    · exact hpusers
    · exact hpsf
    · rw [hpwlen]
      simp

def badFile : FileUpload := ⟨some "notes.exe", some "application/exe", [1]⟩

theorem create_job_validate_then_store_witness :
    (∃ e, create_job DBState.empty exHash exGuess [exFile1, badFile]
      (some "u1") (some "u1") (some "upload_api") "JW" 7 = .error e) ∧
    (∃ s' job results, create_job DBState.empty exHash exGuess [exFile1, exFile2]
      (some "u1") (some "u1") (some "upload_api") "JW" 7 = .ok (s', job, results) ∧
      job.status = "STORED" ∧ results.length = 2) := by
  constructor
  · exact (create_job_validate_then_store DBState.empty exHash exGuess [exFile1, badFile]
      (some "u1") (some "u1") (some "upload_api") "JW" 7).2.2.1 (by decide) (by decide)
  · obtain ⟨s', job, results, h1, h2, -, -, -, -, -, -, h3, -⟩ :=
      (create_job_validate_then_store DBState.empty exHash exGuess [exFile1, exFile2]
        (some "u1") (some "u1") (some "upload_api") "JW" 7).2.2.2
        (by decide) (by decide) (by decide)
    exact ⟨s', job, results, h1, h2, h3⟩

/-! ## Claim C8: offline mutation replay result taxonomy -/

theorem update_note_none_shape (s : DBState) (x u : String) (d : NoteUpdateData)
    (t : Nat) (h : get_note_by_id s x u = none) :
    update_note s x u d t = (s, none) := by
  unfold update_note
  rw [h]

theorem update_note_some_shape (s : DBState) (x u : String) (d : NoteUpdateData)
    (t : Nat) (n : Note) (h : get_note_by_id s x u = some n) :
    update_note s x u d t =
      ({ s with notes := s.notes.map (fun m =>
          if m.id == n.id then { applyNoteUpdate n d with updated_at := t } else m) },
        some { applyNoteUpdate n d with updated_at := t }) := by
  unfold update_note
  rw [h]

theorem set_favorite_none_shape (s : DBState) (x u : String) (v : Bool)
    (t : Nat) (h : get_note_by_id s x u = none) :
    set_favorite s x u v t = (s, none) := by
  unfold set_favorite
  rw [h]

theorem set_favorite_some_shape (s : DBState) (x u : String) (v : Bool)
    (t : Nat) (n : Note) (h : get_note_by_id s x u = some n) :
    set_favorite s x u v t =
      ({ s with notes := s.notes.map (fun m =>
          if m.id == n.id then { n with is_favorite := v, updated_at := t } else m) },
        some { n with is_favorite := v, updated_at := t }) := by
  unfold set_favorite
  rw [h]

theorem applyMutationsAux_length (u : String) (faults : Nat → Option String)
    (clock : Nat → Nat) (logIds : Nat → String) :
    ∀ (muts : List NoteMutationItem) (s : DBState) (i : Nat),
      (applyMutationsAux u faults clock logIds s muts i).2.length = muts.length := by
  intro muts
  induction muts with
  | nil => intro s i; rfl
  | cons m ms ih =>
    intro s i
    simp only [applyMutationsAux, List.length_cons]
    rw [ih]

/-- Scenario E fixture: two owned notes; the batch updates the first,
updates a missing note, and deletes the second. -/
def scnE_n2 : Note := { c2note with id := "n2", title := "t2" }

def scnEState : DBState := { DBState.empty with notes := [c2note, scnE_n2] }

def scnEMuts : List NoteMutationItem :=
  [⟨"op1", .update_note, "n1", some ⟨some "edited", none, none, none, none, none⟩, none⟩,
   ⟨"op2", .update_note, "missing", some ⟨some "x", none, none, none, none, none⟩, none⟩,
   ⟨"op3", .delete_note, "n2", none, none⟩]

def scnEResp : NoteMutationBatchResponse :=
  (apply_note_mutations scnEState "u1" scnEMuts (fun _ => none) (fun i => 10 + i)
    (fun i => "L" ++ toString i) 99).2

/-- Claim C8: each mutation in a replayed batch is applied independently
with the documented statuses and codes — injected exceptions give failed /
500 without touching the state or aborting the rest of the batch, missing
sub-fields give invalid / 422, a missing or foreign target gives
not_found / 404, success gives applied / 200 with the fresh updated_at on
updates and favorite changes; the response counts applied results and
reports everything else as failed_count; and Scenario E yields applied,
not_found, applied with applied_count 2 and failed_count 1. -/
theorem mutation_replay_taxonomy :
    (∀ (s : DBState) (u : String) (muts : List NoteMutationItem)
        (faults : Nat → Option String) (clock : Nat → Nat) (logIds : Nat → String)
        (now : Nat),
      (apply_note_mutations s u muts faults clock logIds now).2.results.length = muts.length ∧
      (apply_note_mutations s u muts faults clock logIds now).2.applied_count =
        ((apply_note_mutations s u muts faults clock logIds now).2.results.countP
          (fun r => r.status == "applied")) ∧
      (apply_note_mutations s u muts faults clock logIds now).2.failed_count =
        (apply_note_mutations s u muts faults clock logIds now).2.results.length -
          (apply_note_mutations s u muts faults clock logIds now).2.applied_count ∧
      (apply_note_mutations s u muts faults clock logIds now).2.server_time = now) ∧
    (∀ (s : DBState) (u : String) (m : NoteMutationItem) (fault : Option String)
        (now : Nat) (lid : String),
      ((applyOneMutation s u m fault now lid).2.op_id = m.op_id ∧
        (applyOneMutation s u m fault now lid).2.mtype = m.mtype.str ∧
        (applyOneMutation s u m fault now lid).2.note_id = m.note_id) ∧
      (∀ msg, fault = some msg →
        (applyOneMutation s u m fault now lid).2.status = "failed" ∧
        (applyOneMutation s u m fault now lid).2.code = 500 ∧
        (applyOneMutation s u m fault now lid).1 = s) ∧
      (fault = none → m.mtype = .update_note →
        (m.patch = none →
          (applyOneMutation s u m fault now lid).2.status = "invalid" ∧
          (applyOneMutation s u m fault now lid).2.code = 422 ∧
          (applyOneMutation s u m fault now lid).1 = s) ∧
        (∀ p, m.patch = some p → p.isEmpty = true →
          (applyOneMutation s u m fault now lid).2.status = "invalid" ∧
          (applyOneMutation s u m fault now lid).2.code = 422 ∧
          (applyOneMutation s u m fault now lid).1 = s) ∧
        (∀ p, m.patch = some p → p.isEmpty = false →
          get_note_by_id s m.note_id u = none →
          (applyOneMutation s u m fault now lid).2.status = "not_found" ∧
          (applyOneMutation s u m fault now lid).2.code = 404 ∧
          (applyOneMutation s u m fault now lid).1 = s) ∧
        (∀ p n, m.patch = some p → p.isEmpty = false →
          get_note_by_id s m.note_id u = some n →
          (applyOneMutation s u m fault now lid).2.status = "applied" ∧
          (applyOneMutation s u m fault now lid).2.code = 200 ∧
          (applyOneMutation s u m fault now lid).2.updated_at = some now)) ∧
      (fault = none → m.mtype = .set_favorite →
        (m.is_favorite = none →
          (applyOneMutation s u m fault now lid).2.status = "invalid" ∧
          (applyOneMutation s u m fault now lid).2.code = 422 ∧
          (applyOneMutation s u m fault now lid).1 = s) ∧
        (∀ v, m.is_favorite = some v → get_note_by_id s m.note_id u = none →
          (applyOneMutation s u m fault now lid).2.status = "not_found" ∧
          (applyOneMutation s u m fault now lid).2.code = 404 ∧
          (applyOneMutation s u m fault now lid).1 = s) ∧
        (∀ v n, m.is_favorite = some v → get_note_by_id s m.note_id u = some n →
          (applyOneMutation s u m fault now lid).2.status = "applied" ∧
          (applyOneMutation s u m fault now lid).2.code = 200 ∧
          (applyOneMutation s u m fault now lid).2.updated_at = some now)) ∧
      (fault = none → m.mtype = .delete_note →
        (get_note_by_id s m.note_id u = none →
          (applyOneMutation s u m fault now lid).2.status = "not_found" ∧
          (applyOneMutation s u m fault now lid).2.code = 404 ∧
          (applyOneMutation s u m fault now lid).1 = s) ∧
        (∀ n, get_note_by_id s m.note_id u = some n →
          (applyOneMutation s u m fault now lid).2.status = "applied" ∧
          (applyOneMutation s u m fault now lid).2.code = 200))) ∧
    (scnEResp.results.map (fun r => r.status) = ["applied", "not_found", "applied"] ∧
      scnEResp.results.map (fun r => r.code) = [200, 404, 200] ∧
      scnEResp.applied_count = 2 ∧ scnEResp.failed_count = 1) := by
  refine ⟨?_, ?_, by decide⟩
  · intro s u muts faults clock logIds now
    refine ⟨?_, rfl, rfl, rfl⟩
    exact applyMutationsAux_length u faults clock logIds muts s 0
  · intro s u m fault now lid
    obtain ⟨oid, mt, nid, patch, isfav⟩ := m
    refine ⟨?_, ?_, ?_, ?_, ?_⟩
    · cases fault with
      | some msg => exact ⟨rfl, rfl, rfl⟩
      | none =>
        cases mt with
        | update_note =>
          cases patch with
          | none => exact ⟨rfl, rfl, rfl⟩
          | some p =>
            by_cases hpe : p.isEmpty = true
            · simp only [applyOneMutation, if_pos hpe]
              exact ⟨trivial, trivial, trivial⟩
            · simp only [applyOneMutation, if_neg hpe]
              cases hget : get_note_by_id s nid u with
              | none => rw [update_note_none_shape s nid u p now hget]; exact ⟨rfl, rfl, rfl⟩
              | some n => rw [update_note_some_shape s nid u p now n hget]; exact ⟨rfl, rfl, rfl⟩
        | set_favorite =>
          cases isfav with
          | none => exact ⟨rfl, rfl, rfl⟩
          | some v =>
            simp only [applyOneMutation]
            cases hget : get_note_by_id s nid u with
            | none => rw [set_favorite_none_shape s nid u v now hget]; exact ⟨rfl, rfl, rfl⟩
            | some n => rw [set_favorite_some_shape s nid u v now n hget]; exact ⟨rfl, rfl, rfl⟩
        | delete_note =>
          simp only [applyOneMutation]
          cases hget : get_note_by_id s nid u with
          | none => rw [delete_note_fail_shape s nid u lid now hget]; exact ⟨rfl, rfl, rfl⟩
          | some n =>
            rw [delete_note_success_shape s nid u lid now (by rw [hget]; rfl)]
            exact ⟨rfl, rfl, rfl⟩
    · intro msg hf
      subst hf
      exact ⟨rfl, rfl, rfl⟩
    · intro hf hm
      subst hf
      subst hm
      refine ⟨?_, ?_, ?_, ?_⟩
      · intro hp; subst hp; exact ⟨rfl, rfl, rfl⟩
      · intro p hp hpe
        subst hp
        simp only [applyOneMutation, if_pos hpe]
        exact ⟨trivial, trivial, trivial⟩
      · intro p hp hpe hget
        subst hp
        simp only [applyOneMutation, if_neg (by simp [hpe] : ¬p.isEmpty = true)]
        rw [update_note_none_shape s nid u p now hget]
        exact ⟨rfl, rfl, rfl⟩
      · intro p n hp hpe hget
        subst hp
        simp only [applyOneMutation, if_neg (by simp [hpe] : ¬p.isEmpty = true)]
        rw [update_note_some_shape s nid u p now n hget]
        exact ⟨rfl, rfl, rfl⟩
    · intro hf hm
      subst hf
      subst hm
      refine ⟨?_, ?_, ?_⟩
      · intro hv; subst hv; exact ⟨rfl, rfl, rfl⟩
      · intro v hv hget
        subst hv
        simp only [applyOneMutation]
        rw [set_favorite_none_shape s nid u v now hget]
        exact ⟨rfl, rfl, rfl⟩
      · intro v n hv hget
        subst hv
        simp only [applyOneMutation]
        rw [set_favorite_some_shape s nid u v now n hget]
        exact ⟨rfl, rfl, rfl⟩
    · intro hf hm
      subst hf
      subst hm
      refine ⟨?_, ?_⟩
      · intro hget
        simp only [applyOneMutation]
        rw [delete_note_fail_shape s nid u lid now hget]
        exact ⟨rfl, rfl, rfl⟩
      · intro n hget
        simp only [applyOneMutation]
        rw [delete_note_success_shape s nid u lid now (by rw [hget]; rfl)]
        exact ⟨rfl, rfl⟩

theorem mutation_replay_taxonomy_witness :
    (applyOneMutation scnEState "u1" ⟨"opX", .update_note, "n1", none, none⟩
      (some "boom") 3 "LX").2.status = "failed" ∧
    (applyOneMutation scnEState "u1" ⟨"opX", .update_note, "n1", none, none⟩
      none 3 "LX").2.status = "invalid" ∧
    (applyOneMutation scnEState "u1" ⟨"opX", .delete_note, "missing", none, none⟩
      none 3 "LX").2.status = "not_found" := by
  refine ⟨?_, ?_, ?_⟩
  · exact ((mutation_replay_taxonomy.2.1 scnEState "u1"
      ⟨"opX", .update_note, "n1", none, none⟩ (some "boom") 3 "LX").2.1 "boom" rfl).1
  · exact (((mutation_replay_taxonomy.2.1 scnEState "u1"
      ⟨"opX", .update_note, "n1", none, none⟩ none 3 "LX").2.2.1 rfl rfl).1 rfl).1
  · exact (((mutation_replay_taxonomy.2.1 scnEState "u1"
      ⟨"opX", .delete_note, "missing", none, none⟩ none 3 "LX").2.2.2.2 rfl rfl).1
      (by decide)).1

/-! ## Claims C6 and C7: the job state machine -/

/-- The committed snapshots of one worker run, for a job found under the
given id: a single FAILED snapshot (admission-to-storage or collaborator
failures), AI_PENDING then FAILED (vision call failures), or the full
success path AI_PENDING, AI_DONE, PERSISTED — with note_id untouched on
every snapshot except the PERSISTED one, which links the created note. -/
theorem process_note_job_cases (s : DBState) (jid uid did nt : String)
    (tags : List String) (avail : Bool) (availReason : Option String)
    (gen : GenOutcome) (cleanText : String → String) (nuuid : String) (now : Nat)
    (j0 : UploadJob)
    (hfind : s.upload_jobs.find? (fun j => j.id == jid) = some j0) :
    (∃ j1, (process_note_job s jid uid did nt tags avail availReason gen cleanText nuuid now).2
        = [j1] ∧ j1.status = "FAILED" ∧ j1.note_id = j0.note_id) ∨
    (∃ j1 j2, (process_note_job s jid uid did nt tags avail availReason gen cleanText nuuid now).2
        = [j1, j2] ∧ j1.status = "AI_PENDING" ∧ j2.status = "FAILED" ∧
        j1.note_id = j0.note_id ∧ j2.note_id = j0.note_id) ∨
    (∃ j1 j2 j3, (process_note_job s jid uid did nt tags avail availReason gen cleanText nuuid now).2
        = [j1, j2, j3] ∧ j1.status = "AI_PENDING" ∧ j2.status = "AI_DONE" ∧
        j3.status = "PERSISTED" ∧ j1.note_id = j0.note_id ∧ j2.note_id = j0.note_id ∧
        j3.note_id = some nuuid) := by
  cases hst : j0.storage with
  | emptyObj =>
    simp only [process_note_job, hfind, hst, storageGetPath, pyOrStr,
      eq_self_iff_true, if_true]
    left
    exact ⟨_, rfl, rfl, rfl⟩
  | obj d =>
    by_cases hdp : d.path = ""
    · simp only [process_note_job, hfind, hst, storageGetPath, pyOrStr, hdp,
        eq_self_iff_true, if_true]
      left
      exact ⟨_, rfl, rfl, rfl⟩
    · cases avail with
      | false =>
        simp only [process_note_job, hfind, hst, storageGetPath, pyOrStr,
          if_neg hdp, Bool.not_false, if_true]
        left
        exact ⟨_, rfl, rfl, rfl⟩
      | true =>
        cases gen with
        | serviceError msg =>
          simp only [process_note_job, hfind, hst, storageGetPath, pyOrStr,
            if_neg hdp, Bool.not_true, Bool.false_eq_true, if_false]
          right; left
          exact ⟨_, _, rfl, rfl, rfl, rfl, rfl⟩
        | crash msg =>
          simp only [process_note_job, hfind, hst, storageGetPath, pyOrStr,
            if_neg hdp, Bool.not_true, Bool.false_eq_true, if_false]
          right; left
          exact ⟨_, _, rfl, rfl, rfl, rfl, rfl⟩
        | ok payload raw_text response_meta =>
          simp only [process_note_job, hfind, hst, storageGetPath, pyOrStr,
            if_neg hdp, Bool.not_true, Bool.false_eq_true, if_false]
          right; right
          exact ⟨_, _, _, rfl, rfl, rfl, rfl, rfl, rfl, rfl⟩
  | arr ds =>
    cases ds with
    | nil =>
      simp only [process_note_job, hfind, hst, storageGetPath, pyOrStr,
        eq_self_iff_true, if_true]
      left
      exact ⟨_, rfl, rfl, rfl⟩
    | cons d rest =>
      simp only [process_note_job, hfind, hst, storageGetPath]
      left
      exact ⟨_, rfl, rfl, rfl⟩

theorem find?_append_of_none {α : Type} (p : α → Bool) (l1 l2 : List α)
    (h : l1.find? p = none) : (l1 ++ l2).find? p = l2.find? p := by
  induction l1 with
  | nil => rfl
  | cons a rest ih =>
    cases hp : p a with
    | true =>
      rw [List.find?_cons_of_pos _ hp] at h
      cases h
    | false =>
      have hp' : ¬p a = true := by simp [hp]
      rw [List.find?_cons_of_neg _ hp'] at h
      rw [List.cons_append, List.find?_cons_of_neg _ hp']
      exact ih h

theorem map_replace_of_fresh (l : List UploadJob) (jid : String) (x : UploadJob)
    (h : ∀ k ∈ l, (k.id == jid) = false) :
    l.map (fun k => if k.id == jid then x else k) = l := by
  induction l with
  | nil => rfl
  | cons a rest ih =>
    simp only [List.map_cons]
    rw [h a (List.mem_cons_self _ _), ih (fun k hk => h k (List.mem_cons_of_mem _ hk))]
    rfl

/-- create_note_from_image on the success path, spelled out: the STORED
job row is committed by create_job, then recommitted as QUEUED, and the
worker task is scheduled with the caller identity, category and parsed
tags. -/
theorem create_note_from_image_ok_shape (s : DBState) (hash : List Nat → String)
    (guessType : String → Option String) (files : List FileUpload)
    (fileCompat : Option FileUpload) (nt : String) (tags : Option String)
    (u jid : String) (now : Nat) (f0 : FileUpload) (frest : List FileUpload)
    (hinc : files ++ (match fileCompat with | some f => [f] | none => []) = f0 :: frest)
    (hle : ¬((f0 :: frest).length > MAX_IMAGE_COUNT))
    (hadm : count_active_jobs s u (some NOTE_JOB_SOURCE) < MAX_CONCURRENT_NOTE_JOBS_PER_USER)
    (hvalid : ∀ f ∈ f0 :: frest, fileInvalid f = false) :
    create_note_from_image s hash guessType files fileCompat nt tags u jid now =
      .ok ({ (createJobOk s hash guessType f0 frest (some u) (some u) (some NOTE_JOB_SOURCE) jid now).1 with
              upload_jobs := (createJobOk s hash guessType f0 frest (some u) (some u) (some NOTE_JOB_SOURCE) jid now).1.upload_jobs.map
                (fun k => if k.id ==
                    ({ (createJobOk s hash guessType f0 frest (some u) (some u) (some NOTE_JOB_SOURCE) jid now).2.1 with
                        status := "QUEUED", updated_at := now } : UploadJob).id
                  then { (createJobOk s hash guessType f0 frest (some u) (some u) (some NOTE_JOB_SOURCE) jid now).2.1 with
                        status := "QUEUED", updated_at := now }
                  else k) },
            { job_id := jid
              status := "ENQUEUED"
              detail := some "笔记生成任务已进入后台队列"
              file_urls := (createJobOk s hash guessType f0 frest (some u) (some u) (some NOTE_JOB_SOURCE) jid now).2.2.map (·.url)
              queued_at := now
              progress_url := "/api/v1/upload/jobs/" ++ jid ++ "/stream" },
            ⟨jid, u, u, nt, splitTags tags⟩,
            [(createJobOk s hash guessType f0 frest (some u) (some u) (some NOTE_JOB_SOURCE) jid now).2.1,
              { (createJobOk s hash guessType f0 frest (some u) (some u) (some NOTE_JOB_SOURCE) jid now).2.1 with
                status := "QUEUED", updated_at := now }]) := by
  unfold create_note_from_image
  rw [hinc, if_neg (by simp), if_neg hle, if_neg (Nat.not_le.mpr hadm),
    create_job_ok_shape s hash guessType f0 frest (some u) (some u) (some NOTE_JOB_SOURCE) jid now hle hvalid]
  rfl

/-- The STORED job row committed by create_job inside the from-image
endpoint. -/
def pipelineStoredJob (s : DBState) (hash : List Nat → String)
    (guessType : String → Option String) (f0 : FileUpload) (frest : List FileUpload)
    (u jid : String) (t0 : Nat) : UploadJob :=
  (createJobOk s hash guessType f0 frest (some u) (some u) (some NOTE_JOB_SOURCE) jid t0).2.1

/-- The QUEUED recommit of the same row. -/
def pipelineQueuedJob (s : DBState) (hash : List Nat → String)
    (guessType : String → Option String) (f0 : FileUpload) (frest : List FileUpload)
    (u jid : String) (t0 : Nat) : UploadJob :=
  { pipelineStoredJob s hash guessType f0 frest u jid t0 with
    status := "QUEUED", updated_at := t0 }

/-- The committed state after the endpoint returns 202. -/
def pipelineQueuedState (s : DBState) (hash : List Nat → String)
    (guessType : String → Option String) (f0 : FileUpload) (frest : List FileUpload)
    (u jid : String) (t0 : Nat) : DBState :=
  { (createJobOk s hash guessType f0 frest (some u) (some u) (some NOTE_JOB_SOURCE) jid t0).1 with
    upload_jobs := (createJobOk s hash guessType f0 frest (some u) (some u) (some NOTE_JOB_SOURCE) jid t0).1.upload_jobs.map
      (fun k => if k.id == (pipelineQueuedJob s hash guessType f0 frest u jid t0).id
        then pipelineQueuedJob s hash guessType f0 frest u jid t0 else k) }

theorem find?_in_updated_jobs (l : List UploadJob) (jid : String) (jobX job2 : UploadJob)
    (hfresh : ∀ k ∈ l, (k.id == jid) = false)
    (hid : jobX.id = jid) (hid2 : job2.id = jid) :
    ((l ++ [jobX]).map (fun k => if k.id == job2.id then job2 else k)).find?
      (fun j => j.id == jid) = some job2 := by
  rw [List.map_append]
  rw [find?_append_of_none]
  · have hcond : (jobX.id == job2.id) = true := by
      rw [hid, hid2]; exact beq_self_eq_true jid
    have hp' : (job2.id == jid) = true := by
      rw [hid2]; exact beq_self_eq_true jid
    simp only [List.map_cons, List.map_nil, hcond, eq_self_iff_true, if_true]
    simp [List.find?, hp']
  · apply List.find?_eq_none.mpr
    intro x hx
    obtain ⟨k, hk, rfl⟩ := List.mem_map.mp hx
    have hkf := hfresh k hk
    have hrep : (if k.id == job2.id then job2 else k) = k := by
      simp only [hid2, hkf, Bool.false_eq_true, if_false]
    rw [hrep]
    simp [hkf]

/-- After the from-image endpoint succeeds, the job row is found QUEUED. -/
theorem pipeline_find_queued (s : DBState) (hash : List Nat → String)
    (guessType : String → Option String) (f0 : FileUpload) (frest : List FileUpload)
    (u jid : String) (t0 : Nat)
    (hfresh : ∀ k ∈ s.upload_jobs, (k.id == jid) = false) :
    (pipelineQueuedState s hash guessType f0 frest u jid t0).upload_jobs.find?
        (fun j => j.id == jid)
      = some (pipelineQueuedJob s hash guessType f0 frest u jid t0) := by
  have hjobs : (createJobOk s hash guessType f0 frest (some u) (some u) (some NOTE_JOB_SOURCE) jid t0).1.upload_jobs
      = s.upload_jobs ++ [pipelineStoredJob s hash guessType f0 frest u jid t0] := by
    obtain ⟨-, -, -, hpjobs, -, -⟩ :=
      storePayloads_spec jid
        (decide ((((f0 :: frest).map (validatedEntry hash guessType)).map (·.2)).length = 1))
        (((f0 :: frest).map (validatedEntry hash guessType)).map (·.2)) s 0
    show (storePayloads s jid _ _ 0).1.upload_jobs ++ [_] = s.upload_jobs ++ [_]
    rw [hpjobs]
    rfl
  show ((createJobOk s hash guessType f0 frest (some u) (some u) (some NOTE_JOB_SOURCE) jid t0).1.upload_jobs.map
      (fun k => if k.id == (pipelineQueuedJob s hash guessType f0 frest u jid t0).id
        then pipelineQueuedJob s hash guessType f0 frest u jid t0 else k)).find?
      (fun j => j.id == jid) = some (pipelineQueuedJob s hash guessType f0 frest u jid t0)
  rw [hjobs]
  exact find?_in_updated_jobs s.upload_jobs jid _ _ hfresh rfl rfl

/-- The full snapshot trace of the from-image pipeline: the STORED and
QUEUED commits of the endpoint followed by the worker commits. -/
theorem pipelineRun_snapshots (s : DBState) (hash : List Nat → String)
    (guessType : String → Option String) (files : List FileUpload)
    (fileCompat : Option FileUpload) (nt : String) (tags : Option String)
    (u jid nuuid : String) (avail : Bool) (availReason : Option String)
    (gen : GenOutcome) (cleanText : String → String) (t0 t1 : Nat)
    (f0 : FileUpload) (frest : List FileUpload)
    (hinc : files ++ (match fileCompat with | some f => [f] | none => []) = f0 :: frest)
    (hle : ¬((f0 :: frest).length > MAX_IMAGE_COUNT))
    (hadm : count_active_jobs s u (some NOTE_JOB_SOURCE) < MAX_CONCURRENT_NOTE_JOBS_PER_USER)
    (hvalid : ∀ f ∈ f0 :: frest, fileInvalid f = false) :
    (pipelineRun s hash guessType files fileCompat nt tags u jid nuuid
        avail availReason gen cleanText t0 t1).2
      = pipelineStoredJob s hash guessType f0 frest u jid t0 ::
        pipelineQueuedJob s hash guessType f0 frest u jid t0 ::
        (process_note_job (pipelineQueuedState s hash guessType f0 frest u jid t0)
          jid u u nt (splitTags tags) avail availReason gen cleanText nuuid t1).2 := by
  unfold pipelineRun
  rw [create_note_from_image_ok_shape s hash guessType files fileCompat nt tags u jid t0
    f0 frest hinc hle hadm hvalid]
  rfl

/-- Worker snapshots all satisfy the link invariant when the job starts
unlinked. -/
theorem process_note_job_inv (s : DBState) (jid uid did nt : String)
    (tags : List String) (avail : Bool) (availReason : Option String)
    (gen : GenOutcome) (cleanText : String → String) (nuuid : String) (now : Nat)
    (j0 : UploadJob)
    (hfind : s.upload_jobs.find? (fun j => j.id == jid) = some j0)
    (hnid : j0.note_id = none) :
    ∀ j ∈ (process_note_job s jid uid did nt tags avail availReason gen cleanText nuuid now).2,
      (j.note_id.isSome = true ↔ j.status = "PERSISTED") := by
  intro j hj
  rcases process_note_job_cases s jid uid did nt tags avail availReason gen cleanText
      nuuid now j0 hfind with
    ⟨j1, htr, hs1, hn1⟩ | ⟨j1, j2, htr, hs1, hs2, hn1, hn2⟩ |
    ⟨j1, j2, j3, htr, hs1, hs2, hs3, hn1, hn2, hn3⟩
  · rw [htr] at hj
    rcases List.mem_singleton.mp hj with rfl
    rw [hs1, hn1, hnid]
    decide
  · rw [htr] at hj
    rcases List.mem_cons.mp hj with rfl | hj'
    · rw [hs1, hn1, hnid]; decide
    · rcases List.mem_singleton.mp hj' with rfl
      rw [hs2, hn2, hnid]; decide
  · rw [htr] at hj
    rcases List.mem_cons.mp hj with rfl | hj'
    · rw [hs1, hn1, hnid]; decide
    · rcases List.mem_cons.mp hj' with rfl | hj''
      · rw [hs2, hn2, hnid]; decide
      · rcases List.mem_singleton.mp hj'' with rfl
        rw [hs3, hn3]; simp

/-- Claim C6: across the committed states of the ingestion pipeline
(STORED and QUEUED commits of the endpoint, then every worker commit on
any storage shape and any collaborator outcome), a job's note_id is
populated exactly on the terminal-success PERSISTED snapshot. -/
theorem job_note_link_invariant :
    (∀ (s : DBState) (hash : List Nat → String) (guessType : String → Option String)
        (files : List FileUpload) (fileCompat : Option FileUpload) (nt : String)
        (tags : Option String) (u jid nuuid : String) (avail : Bool)
        (availReason : Option String) (gen : GenOutcome) (cleanText : String → String)
        (t0 t1 : Nat) (f0 : FileUpload) (frest : List FileUpload),
      files ++ (match fileCompat with | some f => [f] | none => []) = f0 :: frest →
      ¬((f0 :: frest).length > MAX_IMAGE_COUNT) →
      count_active_jobs s u (some NOTE_JOB_SOURCE) < MAX_CONCURRENT_NOTE_JOBS_PER_USER →
      (∀ f ∈ f0 :: frest, fileInvalid f = false) →
      (∀ k ∈ s.upload_jobs, (k.id == jid) = false) →
      ∀ j ∈ (pipelineRun s hash guessType files fileCompat nt tags u jid nuuid
          avail availReason gen cleanText t0 t1).2,
        (j.note_id.isSome = true ↔ j.status = "PERSISTED")) ∧
    (∀ (s : DBState) (jid uid did nt : String) (tags : List String) (avail : Bool)
        (availReason : Option String) (gen : GenOutcome) (cleanText : String → String)
        (nuuid : String) (now : Nat) (j0 : UploadJob),
      s.upload_jobs.find? (fun j => j.id == jid) = some j0 → j0.note_id = none →
      ∀ j ∈ (process_note_job s jid uid did nt tags avail availReason gen cleanText nuuid now).2,
        (j.note_id.isSome = true ↔ j.status = "PERSISTED")) := by
  constructor
  · intro s hash guessType files fileCompat nt tags u jid nuuid avail availReason gen
      cleanText t0 t1 f0 frest hinc hle hadm hvalid hfresh j hj
    rw [pipelineRun_snapshots s hash guessType files fileCompat nt tags u jid nuuid
      avail availReason gen cleanText t0 t1 f0 frest hinc hle hadm hvalid] at hj
    rcases List.mem_cons.mp hj with rfl | hj'
    · rw [show (pipelineStoredJob s hash guessType f0 frest u jid t0).note_id = none from rfl,
        show (pipelineStoredJob s hash guessType f0 frest u jid t0).status = "STORED" from rfl]
      decide
    rcases List.mem_cons.mp hj' with rfl | hj''
    · rw [show (pipelineQueuedJob s hash guessType f0 frest u jid t0).note_id = none from rfl,
        show (pipelineQueuedJob s hash guessType f0 frest u jid t0).status = "QUEUED" from rfl]
      decide
    exact process_note_job_inv (pipelineQueuedState s hash guessType f0 frest u jid t0)
      jid u u nt (splitTags tags) avail availReason gen cleanText nuuid t1
      (pipelineQueuedJob s hash guessType f0 frest u jid t0)
      (pipeline_find_queued s hash guessType f0 frest u jid t0 hfresh) rfl j hj''
  · exact process_note_job_inv

theorem job_note_link_invariant_witness :
    ((scenarioARun.2.head?).map
      (fun j => decide (j.note_id.isSome = true ↔ j.status = "PERSISTED"))) = some true := by
  have h := job_note_link_invariant.1 DBState.empty exHash exGuess
    [exFile1, exFile2, exFile3] none "学习笔记" (some "t1,t2") "u1" "job-a" "note-a"
    true none (.ok exPayload "raw text" "resp-a") exClean 1 2 exFile1 [exFile2, exFile3]
    rfl (by decide) (by decide) (by decide) (by decide)
  cases hsnap : scenarioARun.2 with
  | nil => exact absurd hsnap (by decide)
  | cons a tl =>
    have ha : a ∈ (pipelineRun DBState.empty exHash exGuess [exFile1, exFile2, exFile3]
        none "学习笔记" (some "t1,t2") "u1" "job-a" "note-a" true none
        (.ok exPayload "raw text" "resp-a") exClean 1 2).2 := by
      show a ∈ scenarioARun.2
      rw [hsnap]
      exact List.mem_cons_self a tl
    simp only [List.head?_cons, Option.map_some']
    exact congrArg some (decide_eq_true (h a ha))

/-! ## Claim C7: status transition graph -/

def transitionEdgeB (a b : String) : Bool :=
  (a == "RECEIVED" && b == "STORED") ||
  (a == "STORED" && b == "QUEUED") ||
  (a == "QUEUED" && b == "AI_PENDING") ||
  (a == "AI_PENDING" && b == "AI_DONE") ||
  (a == "AI_DONE" && b == "PERSISTED") ||
  (b == "FAILED" && !(TERMINAL_JOB_STATUSES.contains a))

def graphPathFrom (a : String) : List String → Bool
  | [] => true
  | b :: rest => transitionEdgeB a b && graphPathFrom b rest

def terminalOnlyLast (tr : List String) : Bool :=
  tr.dropLast.all (fun st => !(TERMINAL_JOB_STATUSES.contains st))

/-- A committed status sequence is legal: consecutive edges of the fixed
transition graph starting from RECEIVED, no terminal status before the
last entry. -/
def validStatusTrace (tr : List String) : Bool :=
  graphPathFrom "RECEIVED" tr && terminalOnlyLast tr

/-- Worker traces prefixed by the endpoint commits are legal for a QUEUED
job. -/
theorem process_trace_valid (s : DBState) (jid uid did nt : String)
    (tags : List String) (avail : Bool) (availReason : Option String)
    (gen : GenOutcome) (cleanText : String → String) (nuuid : String) (now : Nat)
    (j0 : UploadJob)
    (hfind : s.upload_jobs.find? (fun j => j.id == jid) = some j0) :
    validStatusTrace ("STORED" :: "QUEUED" ::
      (process_note_job s jid uid did nt tags avail availReason gen cleanText nuuid now).2.map
        (fun j => j.status)) = true := by
  rcases process_note_job_cases s jid uid did nt tags avail availReason gen cleanText
      nuuid now j0 hfind with
    ⟨j1, htr, hs1, -⟩ | ⟨j1, j2, htr, hs1, hs2, -, -⟩ |
    ⟨j1, j2, j3, htr, hs1, hs2, hs3, -, -, -⟩
  · rw [htr]
    simp only [List.map_cons, List.map_nil, hs1]
    decide
  · rw [htr]
    simp only [List.map_cons, List.map_nil, hs1, hs2]
    decide
  · rw [htr]
    simp only [List.map_cons, List.map_nil, hs1, hs2, hs3]
    decide

/-- Claim C7: every committed status sequence follows the fixed graph
RECEIVED, STORED, QUEUED, AI_PENDING, AI_DONE, PERSISTED with FAILED
reachable from every non-terminal state, never regresses, and stops at
the first terminal status: this holds for the from-image pipeline
composite, for the worker run on any found job, and for the generic
upload endpoint whose only commit is the STORED row. -/
theorem job_status_transition_graph :
    (∀ (s : DBState) (hash : List Nat → String) (guessType : String → Option String)
        (files : List FileUpload) (fileCompat : Option FileUpload) (nt : String)
        (tags : Option String) (u jid nuuid : String) (avail : Bool)
        (availReason : Option String) (gen : GenOutcome) (cleanText : String → String)
        (t0 t1 : Nat) (f0 : FileUpload) (frest : List FileUpload),
      files ++ (match fileCompat with | some f => [f] | none => []) = f0 :: frest →
      ¬((f0 :: frest).length > MAX_IMAGE_COUNT) →
      count_active_jobs s u (some NOTE_JOB_SOURCE) < MAX_CONCURRENT_NOTE_JOBS_PER_USER →
      (∀ f ∈ f0 :: frest, fileInvalid f = false) →
      (∀ k ∈ s.upload_jobs, (k.id == jid) = false) →
      validStatusTrace ((pipelineRun s hash guessType files fileCompat nt tags u jid
          nuuid avail availReason gen cleanText t0 t1).2.map (fun j => j.status)) = true) ∧
    (∀ (s : DBState) (jid uid did nt : String) (tags : List String) (avail : Bool)
        (availReason : Option String) (gen : GenOutcome) (cleanText : String → String)
        (nuuid : String) (now : Nat) (j0 : UploadJob),
      s.upload_jobs.find? (fun j => j.id == jid) = some j0 →
      validStatusTrace ("STORED" :: "QUEUED" ::
        (process_note_job s jid uid did nt tags avail availReason gen cleanText nuuid now).2.map
          (fun j => j.status)) = true) ∧
    (∀ (s : DBState) (hash : List Nat → String) (guessType : String → Option String)
        (f0 : FileUpload) (frest : List FileUpload) (uid did src : Option String)
        (jid : String) (now : Nat),
      validStatusTrace
        [(createJobOk s hash guessType f0 frest uid did src jid now).2.1.status] = true) := by
  refine ⟨?_, ?_, ?_⟩
  · intro s hash guessType files fileCompat nt tags u jid nuuid avail availReason gen
      cleanText t0 t1 f0 frest hinc hle hadm hvalid hfresh
    rw [pipelineRun_snapshots s hash guessType files fileCompat nt tags u jid nuuid
      avail availReason gen cleanText t0 t1 f0 frest hinc hle hadm hvalid]
    simp only [List.map_cons]
    have hsS : (pipelineStoredJob s hash guessType f0 frest u jid t0).status = "STORED" := rfl
    have hsQ : (pipelineQueuedJob s hash guessType f0 frest u jid t0).status = "QUEUED" := rfl
    rw [hsS, hsQ]
    exact process_trace_valid (pipelineQueuedState s hash guessType f0 frest u jid t0)
      jid u u nt (splitTags tags) avail availReason gen cleanText nuuid t1
      (pipelineQueuedJob s hash guessType f0 frest u jid t0)
      (pipeline_find_queued s hash guessType f0 frest u jid t0 hfresh)
  · intro s jid uid did nt tags avail availReason gen cleanText nuuid now j0 hfind
    exact process_trace_valid s jid uid did nt tags avail availReason gen cleanText
      nuuid now j0 hfind
  · intro s hash guessType f0 frest uid did src jid now
    rw [show (createJobOk s hash guessType f0 frest uid did src jid now).2.1.status
      = "STORED" from rfl]
    decide

theorem job_status_transition_graph_witness :
    validStatusTrace (scenarioARun.2.map (fun j => j.status)) = true :=
  job_status_transition_graph.1 DBState.empty exHash exGuess
    [exFile1, exFile2, exFile3] none "学习笔记" (some "t1,t2") "u1" "job-a" "note-a"
    true none (.ok exPayload "raw text" "resp-a") exClean 1 2 exFile1 [exFile2, exFile3]
    rfl (by decide) (by decide) (by decide) (by decide)

/-! ## Claim C1: the sync delta query returns every touched note exactly
once.

The invariant carried across the operations an owner performs between
calls: touched surviving notes are owned, unarchived and stamped inside
the window; the deletion log grew only by per-deletion tombstones with
distinct note ids inside the window; and every touched note that is gone
has such a tombstone. -/

structure SyncInv (u : String) (t1 t2 : Nat) (s0 s : DBState)
    (touched : List String) : Prop where
  nodup_ids : (s.notes.map Note.id).Nodup
  touched_note : ∀ n ∈ s.notes, n.id ∈ touched →
    ownershipFilter u n = true ∧ n.is_archived = false ∧
      t1 < n.updated_at ∧ n.updated_at ≤ t2
  logs_shape : ∃ newLogs,
    s.deletion_logs = s0.deletion_logs ++ newLogs ∧
    (newLogs.map DeletionLog.note_id).Nodup ∧
    (∀ l ∈ newLogs, l.user_id = u ∧ t1 < l.deleted_at ∧ l.deleted_at ≤ t2 ∧
      l.note_id ∈ touched ∧ l.note_id ∉ s.notes.map Note.id) ∧
    (∀ x ∈ touched, x ∉ s.notes.map Note.id → x ∈ newLogs.map DeletionLog.note_id)

theorem syncInv_init (u : String) (t1 t2 : Nat) (s0 : DBState)
    (h0nodup : (s0.notes.map Note.id).Nodup) : SyncInv u t1 t2 s0 s0 [] where
  nodup_ids := h0nodup
  touched_note := fun n _ hn => absurd hn (List.not_mem_nil n.id)
  logs_shape := ⟨[], by simp, List.nodup_nil, fun l hl => absurd hl (List.not_mem_nil l),
    fun x hx => absurd hx (List.not_mem_nil x)⟩

theorem syncInv_create (u : String) (t1 t2 : Nat) (s0 s : DBState)
    (touched : List String) (inv : SyncInv u t1 t2 s0 s touched)
    (nid : String) (data : NoteCreateData) (t : Nat)
    (ht1 : t1 < t) (ht2 : t ≤ t2)
    (hf1 : nid ∉ s.notes.map Note.id) (hf2 : nid ∉ touched) :
    SyncInv u t1 t2 s0 (create_note s data u (some u) nid t).1 (touched ++ [nid]) := by
  obtain ⟨newLogs, hL1, hL2, hL3, hL4⟩ := inv.logs_shape
  refine ⟨?_, ?_, newLogs, hL1, hL2, ?_, ?_⟩
  · show ((s.notes ++ [_]).map Note.id).Nodup
    rw [List.map_append]
    rw [List.nodup_append]
    refine ⟨inv.nodup_ids, List.nodup_singleton nid, fun a ha hb => hf1 ?_⟩
    have hab : a = nid := List.mem_singleton.mp hb
    exact hab ▸ ha
  · intro n hn hid
    rcases List.mem_append.mp hn with hn' | hn'
    · rcases List.mem_append.mp hid with hid' | hid'
      · exact inv.touched_note n hn' hid'
      · exact absurd (List.mem_singleton.mp hid' ▸ List.mem_map_of_mem Note.id hn') hf1
    · rcases List.mem_singleton.mp hn' with rfl
      refine ⟨by simp [ownershipFilter], rfl, ht1, ht2⟩
  · intro l hl
    obtain ⟨hu, hta, htb, htc, htd⟩ := hL3 l hl
    refine ⟨hu, hta, htb, List.mem_append_left _ htc, ?_⟩
    show l.note_id ∉ (s.notes ++ [_]).map Note.id
    rw [List.map_append]
    intro hmem
    rcases List.mem_append.mp hmem with h | h
    · exact htd h
    · have hln : l.note_id = nid := List.mem_singleton.mp h
      exact hf2 (hln ▸ htc)
  · intro x hx hmem
    rcases List.mem_append.mp hx with hx' | hx'
    · refine hL4 x hx' ?_
      intro hc
      exact hmem (by
        show x ∈ (s.notes ++ [_]).map Note.id
        rw [List.map_append]
        exact List.mem_append_left _ hc)
    · exfalso
      apply hmem
      rcases List.mem_singleton.mp hx' with rfl
      show x ∈ (s.notes ++ [_]).map Note.id
      rw [List.map_append]
      exact List.mem_append_right _ (by simp)

theorem get_note_by_id_facts (s : DBState) (x u : String) (n : Note)
    (h : get_note_by_id s x u = some n) :
    n ∈ s.notes ∧ n.id = x ∧ ownershipFilter u n = true ∧ n.is_archived = false := by
  have hmem := List.mem_of_find?_eq_some h
  have hp := List.find?_some h
  simp only [Bool.and_eq_true, beq_iff_eq, Bool.not_eq_true'] at hp
  exact ⟨hmem, hp.1.1, hp.1.2, hp.2⟩

theorem syncInv_update (u : String) (t1 t2 : Nat) (s0 s : DBState)
    (touched : List String) (inv : SyncInv u t1 t2 s0 s touched)
    (x : String) (d : NoteUpdateData) (t : Nat) (n : Note)
    (hfind : get_note_by_id s x u = some n) (ht1 : t1 < t) (ht2 : t ≤ t2) :
    SyncInv u t1 t2 s0 (update_note s x u d t).1 (touched ++ [x]) := by
  obtain ⟨hmem, hidx, hown, harch⟩ := get_note_by_id_facts s x u n hfind
  obtain ⟨newLogs, hL1, hL2, hL3, hL4⟩ := inv.logs_shape
  rw [update_note_some_shape s x u d t n hfind]
  have hids : ((s.notes.map (fun m => if m.id == n.id then
      { applyNoteUpdate n d with updated_at := t } else m)).map Note.id)
      = s.notes.map Note.id := by
    rw [List.map_map]
    apply List.map_congr_left
    intro m _
    by_cases hc : (m.id == n.id) = true
    · show (if m.id == n.id then _ else m).id = m.id
      rw [if_pos hc]
      exact (beq_iff_eq.mp hc).symm
    · show (if m.id == n.id then _ else m).id = m.id
      rw [if_neg hc]
  refine ⟨?_, ?_, newLogs, hL1, hL2, ?_, ?_⟩
  · exact hids ▸ inv.nodup_ids
  · intro m' hm' hid'
    obtain ⟨m, hm, rfl⟩ := List.mem_map.mp hm'
    by_cases hc : (m.id == n.id) = true
    · rw [if_pos hc] at hid' ⊢
      exact ⟨hown, harch, ht1, ht2⟩
    · rw [if_neg hc] at hid' ⊢
      rcases List.mem_append.mp hid' with h | h
      · exact inv.touched_note m hm h
      · exfalso
        have hmx : m.id = x := List.mem_singleton.mp h
        exact hc (beq_iff_eq.mpr (hmx.trans hidx.symm))
  · intro l hl
    obtain ⟨hu, hta, htb, htc, htd⟩ := hL3 l hl
    exact ⟨hu, hta, htb, List.mem_append_left _ htc, fun hc => htd (hids ▸ hc)⟩
  · intro x' hx' hmem'
    rcases List.mem_append.mp hx' with h | h
    · exact hL4 x' h (fun hc => hmem' (hids.symm ▸ hc))
    · exfalso
      have hxx : x' = x := List.mem_singleton.mp h
      subst hxx
      apply hmem'
      rw [hids]
      exact hidx ▸ List.mem_map_of_mem Note.id hmem

theorem syncInv_delete (u : String) (t1 t2 : Nat) (s0 s : DBState)
    (touched : List String) (inv : SyncInv u t1 t2 s0 s touched)
    (x lid : String) (t : Nat) (n : Note)
    (hfind : get_note_by_id s x u = some n) (ht1 : t1 < t) (ht2 : t ≤ t2) :
    SyncInv u t1 t2 s0 (delete_note s x u lid t).1 (touched ++ [x]) := by
  obtain ⟨hmem, hidx, hown, harch⟩ := get_note_by_id_facts s x u n hfind
  obtain ⟨newLogs, hL1, hL2, hL3, hL4⟩ := inv.logs_shape
  rw [delete_note_success_shape s x u lid t (by rw [hfind]; rfl)]
  have hxid : x ∈ s.notes.map Note.id := hidx ▸ List.mem_map_of_mem Note.id hmem
  have hsub : List.Sublist ((s.notes.filter (fun m => m.id != x)).map Note.id)
      (s.notes.map Note.id) :=
    (List.filter_sublist _).map _
  have hnotin_filter : x ∉ (s.notes.filter (fun m => m.id != x)).map Note.id := by
    intro hc
    obtain ⟨m, hm, hmx⟩ := List.mem_map.mp hc
    have hne := (List.mem_filter.mp hm).2
    rw [hmx] at hne
    simp at hne
  refine ⟨?_, ?_, newLogs ++ [⟨lid, x, u, t⟩], ?_, ?_, ?_, ?_⟩
  · exact List.Nodup.sublist hsub inv.nodup_ids
  · intro m hm hid
    have hmf := List.mem_filter.mp hm
    rcases List.mem_append.mp hid with h | h
    · exact inv.touched_note m hmf.1 h
    · exfalso
      have hmx : m.id = x := List.mem_singleton.mp h
      have hne := hmf.2
      rw [hmx] at hne
      simp at hne
  · rw [hL1, List.append_assoc]
  · rw [List.map_append, List.nodup_append]
    refine ⟨hL2, by simp, ?_⟩
    intro a ha hb
    have hax : a = x := by simpa using hb
    subst hax
    obtain ⟨l, hl, hla⟩ := List.mem_map.mp ha
    exact (hL3 l hl).2.2.2.2 (hla.symm ▸ hxid)
  · intro l hl
    rcases List.mem_append.mp hl with h | h
    · obtain ⟨hu, hta, htb, htc, htd⟩ := hL3 l h
      exact ⟨hu, hta, htb, List.mem_append_left _ htc, fun hc => htd (hsub.subset hc)⟩
    · have hle : l = ⟨lid, x, u, t⟩ := List.mem_singleton.mp h
      subst hle
      exact ⟨rfl, ht1, ht2, List.mem_append_right _ (by simp), hnotin_filter⟩
  · intro x' hx' hmem'
    rcases List.mem_append.mp hx' with h | h
    · by_cases hxx : x' = x
      · subst hxx
        rw [List.map_append]
        exact List.mem_append_right _ (by simp)
      · have hnotin_old : x' ∉ s.notes.map Note.id := by
          intro hc
          obtain ⟨m, hm, hmx⟩ := List.mem_map.mp hc
          apply hmem'
          refine List.mem_map.mpr ⟨m, List.mem_filter.mpr ⟨hm, ?_⟩, hmx⟩
          rw [hmx]
          exact bne_iff_ne.mpr hxx
        rw [List.map_append]
        exact List.mem_append_left _ (hL4 x' h hnotin_old)
    · have hxx : x' = x := List.mem_singleton.mp h
      subst hxx
      rw [List.map_append]
      exact List.mem_append_right _ (by simp)

theorem update_note_ids (s : DBState) (x u : String) (d : NoteUpdateData)
    (t : Nat) (n : Note) (hfind : get_note_by_id s x u = some n) :
    (update_note s x u d t).1.notes.map Note.id = s.notes.map Note.id := by
  rw [update_note_some_shape s x u d t n hfind]
  show (s.notes.map _).map Note.id = s.notes.map Note.id
  rw [List.map_map]
  apply List.map_congr_left
  intro m _
  by_cases hc : (m.id == n.id) = true
  · show (if m.id == n.id then _ else m).id = m.id
    rw [if_pos hc]
    exact (beq_iff_eq.mp hc).symm
  · show (if m.id == n.id then _ else m).id = m.id
    rw [if_neg hc]

/-- Running a window of owner operations preserves the sync invariant. -/
theorem applyOpsAux_inv (u : String) (t1 t2 : Nat) (s0 : DBState) :
    ∀ (ops : List NoteOp) (s : DBState) (touched : List String),
      SyncInv u t1 t2 s0 s touched →
      (∀ op ∈ ops, t1 < op.time ∧ op.time ≤ t2) →
      (ops.filterMap NoteOp.createdId).Nodup →
      (∀ nid ∈ ops.filterMap NoteOp.createdId,
        nid ∉ s.notes.map Note.id ∧ nid ∉ touched) →
      SyncInv u t1 t2 s0 (applyOpsAux u s touched ops).1 (applyOpsAux u s touched ops).2 := by
  intro ops
  induction ops with
  | nil => exact fun s touched inv _ _ _ => inv
  | cons op ops ih =>
    intro s touched inv hops hnodup hfresh
    have hopt := hops op (List.mem_cons_self _ _)
    have hops' : ∀ o ∈ ops, t1 < o.time ∧ o.time ≤ t2 :=
      fun o ho => hops o (List.mem_cons_of_mem _ ho)
    cases op with
    | createOp nid data t =>
      have hcons : (NoteOp.createOp nid data t :: ops).filterMap NoteOp.createdId
          = nid :: ops.filterMap NoteOp.createdId := rfl
      rw [hcons] at hnodup hfresh
      have hnid := hfresh nid (List.mem_cons_self _ _)
      have hfresh' : ∀ m ∈ ops.filterMap NoteOp.createdId,
          m ∉ (create_note s data u (some u) nid t).1.notes.map Note.id ∧
            m ∉ touched ++ [nid] := by
        intro m hm
        have hmne : m ≠ nid := by
          intro hcontra
          subst hcontra
          exact (List.nodup_cons.mp hnodup).1 hm
        obtain ⟨hm1, hm2⟩ := hfresh m (List.mem_cons_of_mem _ hm)
        constructor
        · show m ∉ (s.notes ++ [_]).map Note.id
          rw [List.map_append]
          intro hc
          rcases List.mem_append.mp hc with h | h
          · exact hm1 h
          · exact hmne (by simpa using h)
        · intro hc
          rcases List.mem_append.mp hc with h | h
          · exact hm2 h
          · exact hmne (List.mem_singleton.mp h)
      have hstep : applyOpsAux u s touched (NoteOp.createOp nid data t :: ops)
          = applyOpsAux u (create_note s data u (some u) nid t).1 (touched ++ [nid]) ops := rfl
      rw [hstep]
      exact ih (create_note s data u (some u) nid t).1 (touched ++ [nid])
        (syncInv_create u t1 t2 s0 s touched inv nid data t hopt.1 hopt.2 hnid.1 hnid.2)
        hops' (List.nodup_cons.mp hnodup).2 hfresh'
    | updateOp x d t =>
      have hcons : (NoteOp.updateOp x d t :: ops).filterMap NoteOp.createdId
          = ops.filterMap NoteOp.createdId := rfl
      rw [hcons] at hnodup hfresh
      cases hf : get_note_by_id s x u with
      | none =>
        have hstep : applyOpsAux u s touched (NoteOp.updateOp x d t :: ops)
            = applyOpsAux u s touched ops := by
          show applyOpsAux u (update_note s x u d t).1
            (match (if (update_note s x u d t).2.isSome then some x else none : Option String) with
             | some y => touched ++ [y]
             | none => touched) ops = applyOpsAux u s touched ops
          rw [update_note_none_shape s x u d t hf]
          rfl
        rw [hstep]
        exact ih s touched inv hops' hnodup hfresh
      | some n =>
        have hstep : applyOpsAux u s touched (NoteOp.updateOp x d t :: ops)
            = applyOpsAux u (update_note s x u d t).1 (touched ++ [x]) ops := by
          show applyOpsAux u (update_note s x u d t).1
            (match (if (update_note s x u d t).2.isSome then some x else none : Option String) with
             | some y => touched ++ [y]
             | none => touched) ops = _
          rw [update_note_some_shape s x u d t n hf]
          rfl
        rw [hstep]
        have hfresh' : ∀ m ∈ ops.filterMap NoteOp.createdId,
            m ∉ (update_note s x u d t).1.notes.map Note.id ∧ m ∉ touched ++ [x] := by
          intro m hm
          obtain ⟨hm1, hm2⟩ := hfresh m hm
          obtain ⟨hmem, hidx, -, -⟩ := get_note_by_id_facts s x u n hf
          constructor
          · rw [update_note_ids s x u d t n hf]
            exact hm1
          · intro hc
            rcases List.mem_append.mp hc with h | h
            · exact hm2 h
            · have hmx : m = x := List.mem_singleton.mp h
              subst hmx
              exact hm1 (hidx ▸ List.mem_map_of_mem Note.id hmem)
        exact ih (update_note s x u d t).1 (touched ++ [x])
          (syncInv_update u t1 t2 s0 s touched inv x d t n hf hopt.1 hopt.2)
          hops' hnodup hfresh'
    | deleteOp x lid t =>
      have hcons : (NoteOp.deleteOp x lid t :: ops).filterMap NoteOp.createdId
          = ops.filterMap NoteOp.createdId := rfl
      rw [hcons] at hnodup hfresh
      cases hf : get_note_by_id s x u with
      | none =>
        have hstep : applyOpsAux u s touched (NoteOp.deleteOp x lid t :: ops)
            = applyOpsAux u s touched ops := by
          show applyOpsAux u (delete_note s x u lid t).1
            (match (if (delete_note s x u lid t).2 then some x else none : Option String) with
             | some y => touched ++ [y]
             | none => touched) ops = applyOpsAux u s touched ops
          rw [delete_note_fail_shape s x u lid t hf]
          rfl
        rw [hstep]
        exact ih s touched inv hops' hnodup hfresh
      | some n =>
        have hstep : applyOpsAux u s touched (NoteOp.deleteOp x lid t :: ops)
            = applyOpsAux u (delete_note s x u lid t).1 (touched ++ [x]) ops := by
          show applyOpsAux u (delete_note s x u lid t).1
            (match (if (delete_note s x u lid t).2 then some x else none : Option String) with
             | some y => touched ++ [y]
             | none => touched) ops = _
          rw [delete_note_success_shape s x u lid t (by rw [hf]; rfl)]
          rfl
        rw [hstep]
        have hfresh' : ∀ m ∈ ops.filterMap NoteOp.createdId,
            m ∉ (delete_note s x u lid t).1.notes.map Note.id ∧ m ∉ touched ++ [x] := by
          intro m hm
          obtain ⟨hm1, hm2⟩ := hfresh m hm
          obtain ⟨hmem, hidx, -, -⟩ := get_note_by_id_facts s x u n hf
          constructor
          · rw [delete_note_success_shape s x u lid t (by rw [hf]; rfl)]
            intro hc
            exact hm1 (((List.filter_sublist _).map Note.id).subset hc)
          · intro hc
            rcases List.mem_append.mp hc with h | h
            · exact hm2 h
            · have hmx : m = x := List.mem_singleton.mp h
              subst hmx
              exact hm1 (hidx ▸ List.mem_map_of_mem Note.id hmem)
        exact ih (delete_note s x u lid t).1 (touched ++ [x])
          (syncInv_delete u t1 t2 s0 s touched inv x lid t n hf hopt.1 hopt.2)
          hops' hnodup hfresh'

theorem sync_exactly_once_of_inv (u : String) (t1 t2 : Nat) (s0 sF : DBState)
    (touched : List String)
    (inv : SyncInv u t1 t2 s0 sF touched)
    (h0logs : ∀ l ∈ s0.deletion_logs, l.deleted_at ≤ t1)
    (hulim : (updatedCandidates sF u t1 (some t2)).length ≤ 500)
    (hdlim : (deletedCandidates sF u t1 (some t2)).length ≤ 500) :
    (sync_notes sF u (some t1) t2).server_time = t2 ∧
    ∀ x ∈ touched,
      (x ∈ sF.notes.map Note.id →
        ((sync_notes sF u (some t1) t2).updated.map NoteSummary.id).count x = 1 ∧
          x ∉ (sync_notes sF u (some t1) t2).deleted_ids) ∧
      (x ∉ sF.notes.map Note.id →
        (sync_notes sF u (some t1) t2).deleted_ids.count x = 1 ∧
          x ∉ (sync_notes sF u (some t1) t2).updated.map NoteSummary.id) := by
  obtain ⟨newLogs, hlogsEq, hlogsNodup, hlogsProps, hlogsCover⟩ := inv.logs_shape
  have hCeq : updatedCandidates sF u t1 (some t2)
      = (sF.notes.filter (fun n =>
          ownershipFilter u n && !n.is_archived && decide (t1 < n.updated_at))).filter
          (fun n => decide (n.updated_at ≤ t2)) := rfl
  have hDeq : deletedCandidates sF u t1 (some t2)
      = (sF.deletion_logs.filter (fun l =>
          l.user_id == u && decide (t1 < l.deleted_at))).filter
          (fun l => decide (l.deleted_at ≤ t2)) := rfl
  have hCsub : List.Sublist (updatedCandidates sF u t1 (some t2)) sF.notes := by
    rw [hCeq]
    exact (List.filter_sublist _).trans (List.filter_sublist _)
  have hCnodup : ((updatedCandidates sF u t1 (some t2)).map Note.id).Nodup :=
    List.Nodup.sublist (hCsub.map Note.id) inv.nodup_ids
  have hDsubNew : ∀ l ∈ deletedCandidates sF u t1 (some t2), l ∈ newLogs := by
    intro l hl
    rw [hDeq] at hl
    obtain ⟨hl1, hl2⟩ := List.mem_filter.mp hl
    obtain ⟨hl3, hl4⟩ := List.mem_filter.mp hl1
    rw [hlogsEq] at hl3
    rcases List.mem_append.mp hl3 with h | h
    · exfalso
      have hle := h0logs l h
      simp only [Bool.and_eq_true] at hl4
      exact absurd (of_decide_eq_true hl4.2) (Nat.not_lt.mpr hle)
    · exact h
  have hDsub : List.Sublist (deletedCandidates sF u t1 (some t2)) newLogs := by
    rw [hDeq, hlogsEq, List.filter_append]
    have hnil : (s0.deletion_logs.filter (fun l =>
        l.user_id == u && decide (t1 < l.deleted_at))) = [] := by
      rw [List.filter_eq_nil_iff]
      intro l hl
      intro hc
      simp only [Bool.and_eq_true] at hc
      exact absurd (of_decide_eq_true hc.2) (Nat.not_lt.mpr (h0logs l hl))
    rw [hnil, List.nil_append]
    exact (List.filter_sublist _).trans (List.filter_sublist _)
  have hDnodup : ((deletedCandidates sF u t1 (some t2)).map DeletionLog.note_id).Nodup :=
    List.Nodup.sublist (hDsub.map DeletionLog.note_id) hlogsNodup
  have hupd : (sync_notes sF u (some t1) t2).updated
      = ((List.insertionSort noteLe (updatedCandidates sF u t1 (some t2))).take 500).map
        noteSummary := rfl
  have hdel : (sync_notes sF u (some t1) t2).deleted_ids
      = ((List.insertionSort logLe (deletedCandidates sF u t1 (some t2))).take 500).map
        DeletionLog.note_id := rfl
  have hpermU : List.Perm (List.insertionSort noteLe (updatedCandidates sF u t1 (some t2)))
      (updatedCandidates sF u t1 (some t2)) := List.perm_insertionSort _ _
  have hpermD : List.Perm (List.insertionSort logLe (deletedCandidates sF u t1 (some t2)))
      (deletedCandidates sF u t1 (some t2)) := List.perm_insertionSort _ _
  have htakeU : (List.insertionSort noteLe (updatedCandidates sF u t1 (some t2))).take 500
      = List.insertionSort noteLe (updatedCandidates sF u t1 (some t2)) :=
    List.take_of_length_le (by rw [hpermU.length_eq]; exact hulim)
  have htakeD : (List.insertionSort logLe (deletedCandidates sF u t1 (some t2))).take 500
      = List.insertionSort logLe (deletedCandidates sF u t1 (some t2)) :=
    List.take_of_length_le (by rw [hpermD.length_eq]; exact hdlim)
  have hupdIds : (sync_notes sF u (some t1) t2).updated.map NoteSummary.id
      = ((List.insertionSort noteLe (updatedCandidates sF u t1 (some t2))).take 500).map
        Note.id := by
    rw [hupd, List.map_map]
    rfl
  have hpermUids :
      List.Perm ((sync_notes sF u (some t1) t2).updated.map NoteSummary.id)
        ((updatedCandidates sF u t1 (some t2)).map Note.id) := by
    rw [hupdIds, htakeU]
    exact hpermU.map Note.id
  have hpermDids :
      List.Perm ((sync_notes sF u (some t1) t2).deleted_ids)
        ((deletedCandidates sF u t1 (some t2)).map DeletionLog.note_id) := by
    rw [hdel, htakeD]
    exact hpermD.map DeletionLog.note_id
  refine ⟨rfl, ?_⟩
  intro x hx
  constructor
  · intro hmem
    obtain ⟨n, hn, hnid⟩ := List.mem_map.mp hmem
    obtain ⟨hown, harch, hgt, hle⟩ := inv.touched_note n hn (hnid ▸ hx)
    have hnC : n ∈ updatedCandidates sF u t1 (some t2) := by
      rw [hCeq]
      refine List.mem_filter.mpr ⟨List.mem_filter.mpr ⟨hn, ?_⟩, ?_⟩
      · rw [hown, harch, decide_eq_true hgt]
        rfl
      · exact decide_eq_true hle
    have hxC : x ∈ (updatedCandidates sF u t1 (some t2)).map Note.id :=
      hnid ▸ List.mem_map_of_mem Note.id hnC
    constructor
    · rw [hpermUids.count_eq]
      exact List.count_eq_one_of_mem hCnodup hxC
    · intro hcdel
      have hxD : x ∈ (deletedCandidates sF u t1 (some t2)).map DeletionLog.note_id :=
        hpermDids.mem_iff.mp hcdel
      obtain ⟨l, hl, hlid⟩ := List.mem_map.mp hxD
      have hlnew := hDsubNew l hl
      obtain ⟨-, -, -, -, hnotin⟩ := hlogsProps l hlnew
      exact hnotin (hlid ▸ (hnid ▸ List.mem_map_of_mem Note.id hn))
  · intro hgone
    have hxNew : x ∈ newLogs.map DeletionLog.note_id := hlogsCover x hx hgone
    obtain ⟨l, hl, hlid⟩ := List.mem_map.mp hxNew
    obtain ⟨hu, hta, htb, -, -⟩ := hlogsProps l hl
    have hlD : l ∈ deletedCandidates sF u t1 (some t2) := by
      rw [hDeq]
      refine List.mem_filter.mpr ⟨List.mem_filter.mpr ⟨?_, ?_⟩, ?_⟩
      · rw [hlogsEq]
        exact List.mem_append_right _ hl
      · rw [hu, decide_eq_true hta]
        simp
      · exact decide_eq_true htb
    have hxD : x ∈ (deletedCandidates sF u t1 (some t2)).map DeletionLog.note_id :=
      hlid ▸ List.mem_map_of_mem DeletionLog.note_id hlD
    constructor
    · rw [hpermDids.count_eq]
      exact List.count_eq_one_of_mem hDnodup hxD
    · intro hcupd
      have hxC : x ∈ (updatedCandidates sF u t1 (some t2)).map Note.id :=
        hpermUids.mem_iff.mp hcupd
      obtain ⟨n, hn, hnid⟩ := List.mem_map.mp hxC
      exact hgone (hnid ▸ List.mem_map_of_mem Note.id (hCsub.subset hn))

/-- C1 (amended): fix two watermarks t1 then t2 and any sequence of owner
create/update/delete service operations timestamped strictly inside
(t1, t2], with fresh pairwise-distinct uuids for the creates. Provided at
most 500 updated notes and at most 500 tombstones of the owner fall inside
the window — the delta queries cap each list at LIMIT 500 — the second
call sync(since = t1, now = t2) returns server_time = t2 and every touched
note exactly once: its summary counted once among updated and absent from
deleted_ids when the note survives, its id counted once in deleted_ids and
absent from updated when it is gone. -/
theorem sync_delta_exactly_once_bounded
    (u : String) (t1 t2 : Nat) (s0 : DBState) (ops : List NoteOp)
    (h0nodup : (s0.notes.map Note.id).Nodup)
    (h0logs : ∀ l ∈ s0.deletion_logs, l.deleted_at ≤ t1)
    (hops : ∀ op ∈ ops, t1 < op.time ∧ op.time ≤ t2)
    (hnodup : (ops.filterMap NoteOp.createdId).Nodup)
    (hfresh : ∀ nid ∈ ops.filterMap NoteOp.createdId, nid ∉ s0.notes.map Note.id)
    (hulim : (updatedCandidates (applyOps u s0 ops).1 u t1 (some t2)).length ≤ 500)
    (hdlim : (deletedCandidates (applyOps u s0 ops).1 u t1 (some t2)).length ≤ 500) :
    (sync_notes (applyOps u s0 ops).1 u (some t1) t2).server_time = t2 ∧
    ∀ x ∈ (applyOps u s0 ops).2,
      (x ∈ (applyOps u s0 ops).1.notes.map Note.id →
        ((sync_notes (applyOps u s0 ops).1 u (some t1) t2).updated.map
            NoteSummary.id).count x = 1 ∧
          x ∉ (sync_notes (applyOps u s0 ops).1 u (some t1) t2).deleted_ids) ∧
      (x ∉ (applyOps u s0 ops).1.notes.map Note.id →
        (sync_notes (applyOps u s0 ops).1 u (some t1) t2).deleted_ids.count x = 1 ∧
          x ∉ (sync_notes (applyOps u s0 ops).1 u (some t1) t2).updated.map
            NoteSummary.id) := by
  have hinv : SyncInv u t1 t2 s0 (applyOps u s0 ops).1 (applyOps u s0 ops).2 :=
    applyOpsAux_inv u t1 t2 s0 ops s0 []
      (syncInv_init u t1 t2 s0 h0nodup) hops hnodup
      (fun nid h => ⟨hfresh nid h, List.not_mem_nil nid⟩)
  exact sync_exactly_once_of_inv u t1 t2 s0 (applyOps u s0 ops).1 (applyOps u s0 ops).2
    hinv h0logs hulim hdlim

def c1note : Note :=
  ⟨"n1", some "u1", "d1", "old", "c", [], [], [], [], "", "", false, false, 0, 1⟩

def c1s0 : DBState := ⟨[c1note], [], [], [], []⟩

def c1data : NoteCreateData := ⟨"t", "", "", "", "", 0, "c", []⟩

def c1ops : List NoteOp :=
  [.createOp "n3" c1data 5, .deleteOp "n1" "L1" 6]

theorem sync_delta_exactly_once_bounded_witness :
    (sync_notes (applyOps "u1" c1s0 c1ops).1 "u1" (some 1) 10).server_time = 10 ∧
    ∀ x ∈ (applyOps "u1" c1s0 c1ops).2,
      (x ∈ (applyOps "u1" c1s0 c1ops).1.notes.map Note.id →
        ((sync_notes (applyOps "u1" c1s0 c1ops).1 "u1" (some 1) 10).updated.map
            NoteSummary.id).count x = 1 ∧
          x ∉ (sync_notes (applyOps "u1" c1s0 c1ops).1 "u1" (some 1) 10).deleted_ids) ∧
      (x ∉ (applyOps "u1" c1s0 c1ops).1.notes.map Note.id →
        (sync_notes (applyOps "u1" c1s0 c1ops).1 "u1" (some 1) 10).deleted_ids.count x = 1 ∧
          x ∉ (sync_notes (applyOps "u1" c1s0 c1ops).1 "u1" (some 1) 10).updated.map
            NoteSummary.id) :=
  sync_delta_exactly_once_bounded "u1" 1 10 c1s0 c1ops (by decide) (by decide)
    (by decide) (by decide) (by decide) (by decide) (by decide)

/-- 501 creates inside the window: more touched notes than the LIMIT 500
row cap of the delta query. -/
def bigOps : List NoteOp :=
  (List.range 501).map (fun i => .createOp ("n" ++ toString i) c1data (i + 2))

set_option maxRecDepth 10000 in
/-- The unbounded exactly-once claim fails: after 501 creates between the
two calls, note n500 is touched and still present, yet the second sync
returns it neither in updated (its summary is cut off by LIMIT 500) nor in
deleted_ids. -/
theorem sync_delta_limit_counterexample :
    "n500" ∈ (applyOps "u1" DBState.empty bigOps).2 ∧
    "n500" ∈ (applyOps "u1" DBState.empty bigOps).1.notes.map Note.id ∧
    (∀ op ∈ bigOps, 1 < op.time ∧ op.time ≤ 1000) ∧
    ((sync_notes (applyOps "u1" DBState.empty bigOps).1 "u1" (some 1) 1000).updated.map
        NoteSummary.id).count "n500" = 0 ∧
    "n500" ∉ (sync_notes (applyOps "u1" DBState.empty bigOps).1 "u1"
      (some 1) 1000).deleted_ids := by
  decide

end AiNoteApp
